import Mathlib

/-!
Verification development for the mkrepo metadata reconciliation engine.

The definitions below are shallow embeddings of the Python sources of the
repository (`rpmfile.py`, `rpmrepo.py`, `debrepo.py`).  Python strings are
modelled as `List Char` (`PyStr`), ordered dictionaries as association
lists with in-place update semantics, fallible code returns `Option` or
`Except`, and machine-level reads work on `List Nat` byte buffers.  Each
definition carries a comment pointing at the function of the source it
embeds; theorems about the claims of the specification follow at the end
of the file.
-/

namespace Mkrepo

/-- Python strings are modelled as lists of characters; all the string
primitives of the sources (`strip`, `split`, `startswith`, ...) are given
explicit executable definitions over this representation. -/
abbrev PyStr := List Char

/-- Convert a Lean string literal to the `PyStr` representation. -/
def pys (s : String) : PyStr := s.data

/-- Characters treated as whitespace by Python's `str.strip()`. -/
def isPyWsp (c : Char) : Bool :=
  c = ' ' || c = '\t' || c = '\n' || c = '\r' || c = '\x0b' || c = '\x0c'

/-- Python `s.strip()`: drop whitespace from both ends. -/
def pyStrip (s : PyStr) : PyStr :=
  ((s.dropWhile isPyWsp).reverse.dropWhile isPyWsp).reverse

/-- Python `s.strip(' ')`: drop space characters (only) from both ends. -/
def pyStripSpaces (s : PyStr) : PyStr :=
  ((s.dropWhile (· = ' ')).reverse.dropWhile (· = ' ')).reverse

/-- Python `s.split(sep)` for a one-character separator: every occurrence
splits, empty pieces are kept (`"a\n\nb".split('\n') = ["a","","b"]`).
The result is always nonempty, so prepending to its head is total. -/
def pySplitChar (sep : Char) : PyStr → List PyStr
  | [] => [[]]
  | c :: rest =>
    let r := pySplitChar sep rest
    if c = sep then [] :: r else (c :: r.headI) :: r.tail

/-- Python `sep.join(pieces)` for a one-character separator. -/
def pyJoinChar (sep : Char) : List PyStr → PyStr
  | [] => []
  | [p] => p
  | p :: rest => p ++ sep :: pyJoinChar sep rest

/-- Python `line.split(':', 1)` when used for destructuring into exactly two
parts: `none` models the `ValueError` raised when no colon is present. -/
def pySplitColon1 : PyStr → Option (PyStr × PyStr)
  | [] => none
  | c :: rest =>
    if c = ':' then some ([], rest)
    else
      match pySplitColon1 rest with
      | some (k, v) => some (c :: k, v)
      | none => none

/-- Python `s.startswith(p)`. -/
def pyStartswith (p s : PyStr) : Bool :=
  decide (s.take p.length = p)

/-- Python `p in s` (substring containment). -/
def pyContains (p : PyStr) : PyStr → Bool
  | [] => pyStartswith p []
  | c :: rest => pyStartswith p (c :: rest) || pyContains p rest

/-- Python `s.find(c)` for a single character: index of the first
occurrence, `-1`-style absence modelled as `none`. -/
def pyFindChar (c : Char) : PyStr → Option Nat
  | [] => none
  | d :: rest =>
    if d = c then some 0
    else (pyFindChar c rest).map (· + 1)

deriving instance DecidableEq for Except

/-- Ordered dictionaries (`collections.OrderedDict`) are association lists;
assignment updates in place when the key exists and appends otherwise. -/
abbrev ODict := List (PyStr × PyStr)

/-- Python `d[k] = v` on an `OrderedDict`. -/
def odSet (d : ODict) (k v : PyStr) : ODict :=
  match d with
  | [] => [(k, v)]
  | (k', v') :: rest =>
    if k' = k then (k, v) :: rest else (k', v') :: odSet rest k v

/-- Python `d.get(k)` / `k in d` probe on an `OrderedDict`. -/
def odGet (d : ODict) (k : PyStr) : Option PyStr :=
  match d with
  | [] => none
  | (k', v') :: rest => if k' = k then some v' else odGet rest k

/-! ### rpmfile.py: RPMSENSE flags (`flags_to_str`) -/

def RPMSENSE_LESS : Nat := 1 <<< 1

def RPMSENSE_GREATER : Nat := 1 <<< 2

def RPMSENSE_EQUAL : Nat := 1 <<< 3

def RPMSENSE_SENSEMASK : Nat := 0x0e

def RPMSENSE_NOTEQUAL : Nat := RPMSENSE_EQUAL ^^^ RPMSENSE_SENSEMASK

def RPMSENSE_RPMLIB : Nat := 1 <<< 24

/-- Embedding of `rpmfile.flags_to_str`: the comparison-operator string for
a dependency flags word.  `Except.ok none` is Python's `None` result and
`Except.error` models the `RuntimeError` raise of the final branch. -/
def flags_to_str (flags : Nat) : Except String (Option String) :=
  let fl := flags &&& 0x0e
  if fl = RPMSENSE_NOTEQUAL then .ok (some "NE")
  else if fl = RPMSENSE_EQUAL then .ok (some "EQ")
  else if fl &&& RPMSENSE_LESS ≠ 0 then .ok (some "LT")
  else if fl &&& RPMSENSE_GREATER ≠ 0 then .ok (some "GT")
  else if fl &&& (RPMSENSE_LESS ||| RPMSENSE_EQUAL) ≠ 0 then .ok (some "LE")
  else if fl &&& (RPMSENSE_GREATER ||| RPMSENSE_EQUAL) ≠ 0 then .ok (some "GE")
  else if fl = 0 then .ok none
  else .error "Unknown flags"

/-! ### rpmrepo.py: repomd.xml parsing and the revision counter

The XML tree produced by `xml.etree.ElementTree` is modelled as a value of
the inductive type `Xml`; the namespace resolution of tags (`'repo:' +
key`) is abstracted into plain local tag names.  A crucial detail of
ElementTree is kept: the truth value of an `Element` is its number of
child elements (`__len__`), so a childless element is falsy. -/

inductive Xml where
  | elem (tag : String) (attrs : List (String × String)) (text : String)
      (children : List Xml)

def Xml.tag : Xml → String
  | .elem t _ _ _ => t

def Xml.attrs : Xml → List (String × String)
  | .elem _ a _ _ => a

def Xml.text : Xml → String
  | .elem _ _ t _ => t

def Xml.children : Xml → List Xml
  | .elem _ _ _ c => c

/-- `Element.find(tag)`: first direct child with the given tag. -/
def Xml.find (x : Xml) (t : String) : Option Xml :=
  x.children.find? (fun c => c.tag = t)

/-- ElementTree truth value of an element: `len(element) > 0`, i.e. the
element has at least one child element; the text is irrelevant. -/
def Xml.truthy (x : Xml) : Bool :=
  !x.children.isEmpty

/-- `child.attrib[k]` probe. -/
def Xml.findAttr (x : Xml) (k : String) : Option String :=
  (x.attrs.find? (fun p => p.1 = k)).map (·.2)

/-- One `<data>` record of `repomd.xml` as read by `rpmrepo.parse_repomd`. -/
structure RepomdRec where
  checksum : String
  openChecksum : String
  timestamp : String
  size : String
  openSize : String
  location : String
deriving DecidableEq

/-- Embedding of the record-reading body of the `for child in root` loop of
`rpmrepo.parse_repomd`: `child.find('repo:' + key).text` for the five text
keys (an absent child raises `AttributeError`, modelled as `Except.error`)
and `child.find('repo:location').attrib['href']`. -/
def readRepomdRec (child : Xml) : Except String RepomdRec := do
  let grab (k : String) : Except String String :=
    match child.find k with
    | some e => .ok e.text
    | none => .error "AttributeError: NoneType has no attribute text"
  let checksum ← grab "checksum"
  let openChecksum ← grab "open-checksum"
  let timestamp ← grab "timestamp"
  let size ← grab "size"
  let openSize ← grab "open-size"
  let location ←
    match child.find "location" with
    | some e =>
      match e.findAttr "href" with
      | some h => Except.ok h
      | none => Except.error "KeyError: href"
    | none => Except.error "AttributeError: NoneType has no attribute attrib"
  return ⟨checksum, openChecksum, timestamp, size, openSize, location⟩

/-- The child loop of `rpmrepo.parse_repomd`: children without a `type`
attribute are skipped, the record is read (possibly raising) and then
stored according to `type`; `none` models the initial empty dicts. -/
def repomdLoop :
    List Xml → Option RepomdRec × Option RepomdRec × Option RepomdRec →
    Except String (Option RepomdRec × Option RepomdRec × Option RepomdRec)
  | [], acc => .ok acc
  | child :: rest, (f, p, o) =>
    match child.findAttr "type" with
    | none => repomdLoop rest (f, p, o)
    | some ty => do
      let r ← readRepomdRec child
      if ty = "filelists" then repomdLoop rest (some r, p, o)
      else if ty = "primary" then repomdLoop rest (f, some r, o)
      else if ty = "other" then repomdLoop rest (f, p, some r)
      else repomdLoop rest (f, p, o)

/-- Embedding of `rpmrepo.parse_repomd` (on an already-built element tree):
returns the filelists/primary/other records and the revision string.  The
revision defaults to `'0'` and is overwritten by the text of the
`<revision>` element only when that element is *truthy* in the
ElementTree sense (`if revision_element:`), i.e. only when it has child
elements. -/
def parse_repomd (root : Xml) :
    Except String (Option RepomdRec × Option RepomdRec × Option RepomdRec × String) := do
  let revision : String :=
    match root.find "revision" with
    | some e => if e.truthy then e.text else "0"
    | none => "0"
  let (f, p, o) ← repomdLoop root.children (none, none, none)
  return (f, p, o, revision)

/-- Python `int(s)` restricted to optionally-signed decimal literals;
`none` models the `ValueError` raise. -/
def pyInt (s : String) : Option Int :=
  let digitsVal : List Char → Option Nat := fun l =>
    if l ≠ [] ∧ l.all (·.isDigit) then
      some (l.foldl (fun acc c => acc * 10 + (c.toNat - '0'.toNat)) 0)
    else none
  match s.data with
  | '-' :: rest => (digitsVal rest).map (fun n => -(n : Int))
  | l => (digitsVal l).map (fun n => (n : Int))

/-- Embedding of the revision bump of `rpmrepo.update_repo`
(`revision = str(int(revision) + 1)`). -/
def next_revision (revision : String) : Option String :=
  (pyInt revision).map (fun n => toString (n + 1))

/-! ### debrepo.py: control-file parser and emitter

`Package.parse_string` (binary packages) and `Source.parse_string`
(source packages) share the line loop but differ in three places kept
faithfully below: the binary parser restarts the value on a continuation
line when the accumulated value is falsy, strips the full whitespace set
on flush and does not rename keys; the source parser concatenates
unconditionally (formatting `None` as the string `"None"` like Python's
`'%s' % None`), strips only spaces on flush, and renames a `Source` key
to `Package`.  `none` models the `ValueError` of `line.split(':', 1)`
and the `AttributeError` of `None.strip()`. -/

/-- Python `'%s' % value` where `value` is a string or `None`. -/
def pyFormatOpt : Option PyStr → PyStr
  | some s => s
  | none => pys "None"

/-- Line loop of `debrepo.Package.parse_string`. -/
def pkgLoop : Option PyStr → Option PyStr → ODict → List PyStr → Option ODict
  | key, value, result, [] =>
    match key with
    | some k =>
      match value with
      | some v => some (odSet result k (pyStrip v))
      | none => none
    | none => some result
  | key, value, result, line :: rest =>
    if pyStartswith (pys " ") line then
      let value' :=
        match value with
        | some v => if v ≠ [] then some (v ++ '\n' :: line) else some line
        | none => some line
      pkgLoop key value' result rest
    else
      let flushed : Option ODict :=
        match key with
        | some k =>
          match value with
          | some v => some (odSet result k (pyStrip v))
          | none => none
        | none => some result
      match flushed with
      | none => none
      | some result' =>
        match pySplitColon1 line with
        | some (k, v) => pkgLoop (some k) (some v) result' rest
        | none => none

/-- Embedding of `debrepo.Package.parse_string`. -/
def Package.parse_string (data : PyStr) : Option ODict :=
  pkgLoop none none [] (pySplitChar '\n' (pyStrip data))

/-- Embedding of `debrepo.Package.dump_string`: always `'%s: %s'`. -/
def Package.dump_string (fields : ODict) : PyStr :=
  pyJoinChar '\n' (fields.map (fun kv => kv.1 ++ ':' :: ' ' :: kv.2))

/-- Key renaming of `debrepo.Source.parse_string` (`Source` → `Package`). -/
def sourceRename (k : PyStr) : PyStr :=
  if k = pys "Source" then pys "Package" else k

/-- Line loop of `debrepo.Source.parse_string`. -/
def srcLoop : Option PyStr → Option PyStr → ODict → List PyStr → Option ODict
  | key, value, result, [] =>
    match key with
    | some k =>
      match value with
      | some v => some (odSet result k (pyStripSpaces v))
      | none => none
    | none => some result
  | key, value, result, line :: rest =>
    if pyStartswith (pys " ") line then
      srcLoop key (some (pyFormatOpt value ++ '\n' :: line)) result rest
    else
      let flushed : Option ODict :=
        match key with
        | some k =>
          match value with
          | some v => some (odSet result k (pyStripSpaces v))
          | none => none
        | none => some result
      match flushed with
      | none => none
      | some result' =>
        match pySplitColon1 line with
        | some (k, v) => srcLoop (some (sourceRename k)) (some v) result' rest
        | none => none

/-- Embedding of `debrepo.Source.parse_string`. -/
def Source.parse_string (data : PyStr) : Option ODict :=
  srcLoop none none [] (pySplitChar '\n' (pyStrip data))

/-- Embedding of `debrepo.Source.dump_string`: `'%s:%s'` (no space) when
the stored value begins with a newline, `'%s: %s'` otherwise. -/
def Source.dump_string (fields : ODict) : PyStr :=
  pyJoinChar '\n' (fields.map (fun kv =>
    if pyStartswith (pys "\n") kv.2 then kv.1 ++ ':' :: kv.2
    else kv.1 ++ ':' :: ' ' :: kv.2))

/-! ### Well-formed control stanzas

A stanza is described structurally: each field has a key, the value part
of its colon line, and the contents of its continuation lines (without
their mandatory leading space).  `renderStanza` produces the wire form. -/

structure SrcField where
  key : PyStr
  firstVal : PyStr
  conts : List PyStr
deriving DecidableEq

/-- Wire lines of one field: the colon line (`Key: v` or bare `Key:` when
the first-line value is empty) followed by the continuation lines. -/
def fieldLines (f : SrcField) : List PyStr :=
  (f.key ++ ':' :: (if f.firstVal = [] then [] else ' ' :: f.firstVal))
    :: f.conts.map (fun c => ' ' :: c)

/-- The value stored for a field by the source parser after the flush. -/
def storedValue (f : SrcField) : PyStr :=
  f.firstVal ++ f.conts.flatMap (fun c => '\n' :: ' ' :: c)

/-- Wire form of a stanza. -/
def renderStanza (fs : List SrcField) : PyStr :=
  pyJoinChar '\n' (fs.flatMap fieldLines)

/-- Continuation-line contents that survive the flush-time strip. -/
def GoodLine (c : PyStr) : Prop :=
  c ≠ [] ∧ '\n' ∉ c ∧ ∀ x ∈ c.getLast?, isPyWsp x = false

/-- Well-formedness of one field, the conditions under which the source
parser reproduces exactly the described stored value. -/
def WFField (f : SrcField) : Prop :=
  f.key ≠ [] ∧ '\n' ∉ f.key ∧ ':' ∉ f.key ∧
  (∀ x ∈ f.key.head?, isPyWsp x = false) ∧ f.key ≠ pys "Source" ∧
  '\n' ∉ f.firstVal ∧
  (f.firstVal = [] → f.conts ≠ []) ∧
  (∀ x ∈ f.firstVal.head?, ¬(x = ' ')) ∧
  (∀ x ∈ f.firstVal.getLast?, isPyWsp x = false) ∧
  (∀ c ∈ f.conts, GoodLine c)

/-- Well-formedness of a stanza: nonempty, all fields well formed, keys
pairwise distinct. -/
def WFStanza (fs : List SrcField) : Prop :=
  fs ≠ [] ∧ (∀ f ∈ fs, WFField f) ∧ (fs.map SrcField.key).Nodup

instance : DecidablePred GoodLine := fun c => by
  unfold GoodLine
  infer_instance

instance : DecidablePred WFField := fun f => by
  unfold WFField
  infer_instance

instance (fs : List SrcField) : Decidable (WFStanza fs) := by
  unfold WFStanza
  infer_instance

/-! ### Behaviour of the source-parser loop on well-formed stanzas -/

/-- Accumulated (pre-strip) value of one field at flush time. -/
def rawValueFull (f : SrcField) : PyStr :=
  (if f.firstVal = [] then [] else ' ' :: f.firstVal) ++
    f.conts.flatMap (fun c => '\n' :: ' ' :: c)

/-! ### debrepo.py: `.dsc` parsing (`Source.parse_dsc`) -/

/-- Python `os.path.basename` on slash-separated keys. -/
def pyBasename (p : PyStr) : PyStr :=
  (p.reverse.takeWhile (fun c => ¬(c = '/'))).reverse

/-- Python `os.path.dirname` on slash-separated keys. -/
def pyDirname (p : PyStr) : PyStr :=
  ((p.reverse.dropWhile (fun c => ¬(c = '/'))).tail).reverse

/-- Embedding of `debrepo.Source.parse_dsc`.  File system effects are
abstracted into arguments: `dscData` is the content of the local file,
`size` its byte size (`os.path.getsize`), and `checksum ty` the digest
`file_checksum(dscfile, ty)`.  The unused `mtime` parameter of the Python
method is omitted.  `Except.error` models the exceptions that escape: a
parse failure of the stanza and the `KeyError` raised by
`self.fields[field]` when a checksum field is absent. -/
def Source.parse_dsc (dscData : PyStr) (location : PyStr) (size : Nat)
    (checksum : String → PyStr) : Except String ODict := do
  let fields ←
    match Source.parse_string dscData with
    | some fs => Except.ok fs
    | none => Except.error "ValueError: not a parsable control stanza"
  let fields := odSet fields (pys "Directory") (pyDirname location)
  let file_information := pys (toString size) ++ ' ' :: pyBasename location
  let step (fields : ODict) (field : PyStr) (ty : String) : Except String ODict :=
    match odGet fields field with
    | none => Except.error "KeyError"
    | some v =>
      if v ≠ [] then
        Except.ok (odSet fields field
          (v ++ '\n' :: ' ' :: (checksum ty ++ ' ' :: file_information)))
      else Except.ok fields
  let fields ← step fields (pys "Files") "md5"
  let fields ← step fields (pys "Checksums-Sha1") "sha1"
  let fields ← step fields (pys "Checksums-Sha256") "sha256"
  return fields

/-! ### debrepo.py: `.deb` path splitting (`split_pkg_path`)

The filename regex
`(?P<package>[^_]+)_(?P<version>[0-9]+(\.[0-9]+)(two to three times)(\.g[a-f0-9]+)?\-[0-9])(\.(?P<revision>[^\-]+))?([\-]?(?P<dist>[^_]+))?_(?P<arch>[^\.]+)\.deb`
anchored at both ends is transcribed as an explicit backtracking matcher:
each `+` run is tried longest first (Python's greedy semantics) and each
optional group tries the matching branch before the empty one. -/

/-- One-or-more characters of a class, greedy with backtracking: the
continuation receives the matched run and the rest, longest run first. -/
def rePlus (p : Char → Bool) (s : PyStr) (k : PyStr → PyStr → Option α) :
    Option α :=
  go (s.takeWhile p).length
where
  go : Nat → Option α
    | 0 => none
    | n + 1 =>
      match k (s.take (n + 1)) (s.drop (n + 1)) with
      | some r => some r
      | none => go n

/-- A literal character. -/
def reChar (c : Char) (s : PyStr) (k : PyStr → Option α) : Option α :=
  match s with
  | d :: rest => if d = c then k rest else none
  | [] => none

/-- Greedy option: try the group, fall back to skipping it. -/
def reOpt (m : PyStr → (PyStr → Option α) → Option α) (s : PyStr)
    (k : PyStr → Option α) : Option α :=
  match m s k with
  | some r => some r
  | none => k s

/-- The character class `[a-f0-9]` of the `.g<hash>` version suffix. -/
def isLowerHex (c : Char) : Bool :=
  c.isDigit || ('a' ≤ c && c ≤ 'f')

/-- The repeated group `(\.[0-9]+)` of the version. -/
def repDotDigits (s : PyStr) (k : PyStr → Option α) : Option α :=
  reChar '.' s (fun s₁ => rePlus Char.isDigit s₁ (fun _ s₂ => k s₂))

/-- The optional group `(\.g[a-f0-9]+)?` body. -/
def repDotGHex (s : PyStr) (k : PyStr → Option α) : Option α :=
  reChar '.' s (fun s₁ => reChar 'g' s₁
    (fun s₂ => rePlus isLowerHex s₂ (fun _ s₃ => k s₃)))

/-- Captures of the `.deb` filename regex:
package, version, revision, dist, arch. -/
abbrev DebMatch := PyStr × PyStr × Option PyStr × Option PyStr × PyStr

/-- Trailer `_(?P<arch>[^\.]+)\.deb$`. -/
def debTail (pkg ver : PyStr) (rev dist : Option PyStr) (s : PyStr) :
    Option DebMatch :=
  match s with
  | '_' :: t =>
    rePlus (fun c => ¬(c = '.')) t (fun arch rest =>
      if rest = pys ".deb" then some (pkg, ver, rev, dist, arch) else none)
  | _ => none

/-- Optional group `([\-]?(?P<dist>[^_]+))?` followed by the trailer; the
inner `[\-]?` is itself greedy. -/
def debDistPart (pkg ver : PyStr) (rev : Option PyStr) (s : PyStr) :
    Option DebMatch :=
  let distName := fun (t : PyStr) =>
    rePlus (fun c => ¬(c = '_')) t
      (fun dist rest => debTail pkg ver rev (some dist) rest)
  let withGroup :=
    match s with
    | '-' :: t =>
      match distName t with
      | some r => some r
      | none => distName s
    | _ => distName s
  match withGroup with
  | some r => some r
  | none => debTail pkg ver rev none s

/-- Optional group `(\.(?P<revision>[^\-]+))?` followed by the rest. -/
def debRevisionPart (pkg ver : PyStr) (s : PyStr) : Option DebMatch :=
  match reChar '.' s (fun t => rePlus (fun c => ¬(c = '-')) t
      (fun rev rest => debDistPart pkg ver (some rev) rest)) with
  | some r => some r
  | none => debDistPart pkg ver none s

/-- The version group
`(?P<version>[0-9]+(\.[0-9]+)(2..3 reps)(\.g[a-f0-9]+)?\-[0-9])`; the
capture is recovered from the consumed length. -/
def debVersionPart (pkg : PyStr) (s₁ : PyStr) : Option DebMatch :=
  rePlus Char.isDigit s₁ (fun _ s₂ =>
    repDotDigits s₂ (fun s₃ =>
      repDotDigits s₃ (fun s₄ =>
        reOpt repDotDigits s₄ (fun s₅ =>
          reOpt repDotGHex s₅ (fun s₆ =>
            reChar '-' s₆ (fun s₇ =>
              match s₇ with
              | d :: s₈ =>
                if d.isDigit then
                  debRevisionPart pkg (s₁.take (s₁.length - s₈.length)) s₈
                else none
              | [] => none))))))

/-- Whole-string match of the `.deb` filename regex.  The leading
`(?P<package>[^_]+)_` admits exactly one split (the class cannot cross an
underscore), so it is matched deterministically. -/
def match_deb_name (s : PyStr) : Option DebMatch :=
  let pkgRun := s.takeWhile (fun c => ¬(c = '_'))
  if pkgRun = [] then none
  else
    match s.drop pkgRun.length with
    | '_' :: s₁ => debVersionPart pkgRun s₁
    | _ => none

/-- The path regex `^pool/(?P<dist>[^/]+)/main` of `split_pkg_path`
(`re.match`, so a prefix match). -/
def match_pool_path (s : PyStr) : Option PyStr :=
  if pyStartswith (pys "pool/") s then
    let rest := s.drop 5
    let dist := rest.takeWhile (fun c => ¬(c = '/'))
    if dist ≠ [] ∧ pyStartswith (pys "/main") (rest.drop dist.length) then
      some dist
    else none
  else none

/-- Embedding of `debrepo.split_pkg_path`: `Except.ok none` is the
`return None` of a failed filename match; `Except.error` models the
`AttributeError` raised by `match_path.group('dist')` when the filename
regex matched without a `dist` group and the path regex did not match. -/
def split_pkg_path (pkg_path : PyStr) :
    Except String (Option (PyStr × PyStr × PyStr)) :=
  let match_package := match_deb_name pkg_path
  let match_path := match_pool_path pkg_path
  match match_package with
  | none => Except.ok none
  | some (_, _, _, distGroup, arch) =>
    let component := pys "main"
    match distGroup with
    | some d => Except.ok (some (d, component, arch))
    | none =>
      match match_path with
      | some d => Except.ok (some (d, component, arch))
      | none => Except.error "AttributeError: NoneType has no attribute group"

/-! ### rpmfile.py: RPM lead and header decoding (`RpmInfo`) -/

/-- File contents are byte lists. -/
abbrev Bytes := List Nat

def RPM_MAGIC : Nat := 0xedabeedb

def RPM_HEADER_HEADER_MAGIC : Nat := 0x8eade8

def OLD_STYLE_HEADER_SIZE : Nat := 96

/-- `rpmfile.SIGNATURE_TAG_TABLE`. -/
def SIGNATURE_TAG_TABLE : List (Nat × String) := [
  (1000, "SIG_SIZE"), (1001, "LEMD5_1"), (1002, "PGP"), (1003, "LEMD5_2"),
  (1004, "MD5"), (1005, "GPG"), (1006, "PGP5"), (1007, "PAYLOADSIZE"),
  (264, "BADSHA1_1"), (265, "BADSHA1_2"), (269, "SHA1"), (267, "DSA"),
  (268, "RSA"), (270, "SIG_LONGSIZE"), (271, "SIG_LONGARCHIVESIZE")
]

/-- `rpmfile.HEADER_TAG_TABLE`. -/
def HEADER_TAG_TABLE : List (Nat × String) := [
  (61, "HEADERIMAGE"), (62, "HEADERSIGNATURES"), (63, "HEADERIMMUTABLE"), (64, "HEADERREGIONS"),
  (100, "HEADERI18NTABLE"), (256, "SIG_BASE"), (257, "SIGSIZE"), (258, "SIGLEMD5_1"),
  (259, "SIGPGP"), (260, "SIGLEMD5_2"), (261, "SIGMD5"), (262, "SIGGPG"),
  (263, "SIGPGP5"), (264, "BADSHA1_1"), (265, "BADSHA1_2"), (266, "PUBKEYS"),
  (267, "DSAHEADER"), (268, "RSAHEADER"), (269, "SHA1HEADER"), (270, "LONGSIGSIZE"),
  (271, "LONGARCHIVESIZE"), (1000, "NAME"), (1001, "VERSION"), (1002, "RELEASE"),
  (1003, "EPOCH"), (1004, "SUMMARY"), (1005, "DESCRIPTION"), (1006, "BUILDTIME"),
  (1007, "BUILDHOST"), (1008, "INSTALLTIME"), (1009, "SIZE"), (1010, "DISTRIBUTION"),
  (1011, "VENDOR"), (1012, "GIF"), (1013, "XPM"), (1014, "LICENSE"),
  (1015, "PACKAGER"), (1016, "GROUP"), (1017, "CHANGELOG"), (1018, "SOURCE"),
  (1019, "PATCH"), (1020, "URL"), (1021, "OS"), (1022, "ARCH"),
  (1023, "PREIN"), (1024, "POSTIN"), (1025, "PREUN"), (1026, "POSTUN"),
  (1027, "OLDFILENAMES"), (1028, "FILESIZES"), (1029, "FILESTATES"), (1030, "FILEMODES"),
  (1031, "FILEUIDS"), (1032, "FILEGIDS"), (1033, "FILERDEVS"), (1034, "FILEMTIMES"),
  (1035, "FILEDIGESTS"), (1036, "FILELINKTOS"), (1037, "FILEFLAGS"), (1038, "ROOT"),
  (1039, "FILEUSERNAME"), (1040, "FILEGROUPNAME"), (1041, "EXCLUDE"), (1042, "EXCLUSIVE"),
  (1043, "ICON"), (1044, "SOURCERPM"), (1045, "FILEVERIFYFLAGS"), (1046, "ARCHIVESIZE"),
  (1047, "PROVIDENAME"), (1048, "REQUIREFLAGS"), (1049, "REQUIRENAME"), (1050, "REQUIREVERSION"),
  (1051, "NOSOURCE"), (1052, "NOPATCH"), (1053, "CONFLICTFLAGS"), (1054, "CONFLICTNAME"),
  (1055, "CONFLICTVERSION"), (1056, "DEFAULTPREFIX"), (1057, "BUILDROOT"), (1058, "INSTALLPREFIX"),
  (1059, "EXCLUDEARCH"), (1060, "EXCLUDEOS"), (1061, "EXCLUSIVEARCH"), (1062, "EXCLUSIVEOS"),
  (1063, "AUTOREQPROV"), (1064, "RPMVERSION"), (1065, "TRIGGERSCRIPTS"), (1066, "TRIGGERNAME"),
  (1067, "TRIGGERVERSION"), (1068, "TRIGGERFLAGS"), (1069, "TRIGGERINDEX"), (1079, "VERIFYSCRIPT"),
  (1080, "CHANGELOGTIME"), (1081, "CHANGELOGNAME"), (1082, "CHANGELOGTEXT"), (1083, "BROKENMD5"),
  (1084, "PREREQ"), (1085, "PREINPROG"), (1086, "POSTINPROG"), (1087, "PREUNPROG"),
  (1088, "POSTUNPROG"), (1089, "BUILDARCHS"), (1090, "OBSOLETENAME"), (1091, "VERIFYSCRIPTPROG"),
  (1092, "TRIGGERSCRIPTPROG"), (1093, "DOCDIR"), (1094, "COOKIE"), (1095, "FILEDEVICES"),
  (1096, "FILEINODES"), (1097, "FILELANGS"), (1098, "PREFIXES"), (1099, "INSTPREFIXES"),
  (1100, "TRIGGERIN"), (1101, "TRIGGERUN"), (1102, "TRIGGERPOSTUN"), (1103, "AUTOREQ"),
  (1104, "AUTOPROV"), (1105, "CAPABILITY"), (1106, "SOURCEPACKAGE"), (1107, "OLDORIGFILENAMES"),
  (1108, "BUILDPREREQ"), (1109, "BUILDREQUIRES"), (1110, "BUILDCONFLICTS"), (1111, "BUILDMACROS"),
  (1112, "PROVIDEFLAGS"), (1113, "PROVIDEVERSION"), (1114, "OBSOLETEFLAGS"), (1115, "OBSOLETEVERSION"),
  (1116, "DIRINDEXES"), (1117, "BASENAMES"), (1118, "DIRNAMES"), (1119, "ORIGDIRINDEXES"),
  (1120, "ORIGBASENAMES"), (1121, "ORIGDIRNAMES"), (1122, "OPTFLAGS"), (1123, "DISTURL"),
  (1124, "PAYLOADFORMAT"), (1125, "PAYLOADCOMPRESSOR"), (1126, "PAYLOADFLAGS"), (1127, "INSTALLCOLOR"),
  (1128, "INSTALLTID"), (1129, "REMOVETID"), (1130, "SHA1RHN"), (1131, "RHNPLATFORM"),
  (1132, "PLATFORM"), (1133, "PATCHESNAME"), (1134, "PATCHESFLAGS"), (1135, "PATCHESVERSION"),
  (1136, "CACHECTIME"), (1137, "CACHEPKGPATH"), (1138, "CACHEPKGSIZE"), (1139, "CACHEPKGMTIME"),
  (1140, "FILECOLORS"), (1141, "FILECLASS"), (1142, "CLASSDICT"), (1143, "FILEDEPENDSX"),
  (1144, "FILEDEPENDSN"), (1145, "DEPENDSDICT"), (1146, "SOURCEPKGID"), (1147, "FILECONTEXTS"),
  (1148, "rpm/rpmtag.h"), (1149, "RECONTEXTS"), (1150, "POLICIES"), (1151, "PRETRANS"),
  (1152, "POSTTRANS"), (1153, "PRETRANSPROG"), (1154, "rpm/rpmtag.h"), (1155, "DISTTAG"),
  (1156, "SUGGESTSNAME"), (1157, "SUGGESTSVERSION"), (1158, "SUGGESTSFLAGS"), (1159, "ENHANCESNAME"),
  (1160, "ENHANCESVERSION"), (1161, "ENHANCESFLAGS"), (1162, "PRIORITY"), (1163, "CVSID"),
  (1164, "BLINKPKGID"), (1165, "BLINKHDRID"), (1166, "BLINKNEVRA"), (1167, "FLINKPKGID"),
  (1168, "FLINKHDRID"), (1169, "FLINKNEVRA"), (1170, "PACKAGEORIGIN"), (1171, "TRIGGERPREIN"),
  (1172, "BUILDSUGGESTS"), (1173, "BUILDENHANCES"), (1174, "SCRIPTSTATES"), (1175, "SCRIPTMETRICS"),
  (1176, "BUILDCPUCLOCK"), (1177, "FILEDIGESTALGOS"), (1178, "VARIANTS"), (1179, "XMAJOR"),
  (1180, "XMINOR"), (1181, "REPOTAG"), (1182, "KEYWORDS"), (1183, "BUILDPLATFORMS"),
  (1184, "PACKAGECOLOR"), (1185, "PACKAGEPREFCOLOR"), (1186, "XATTRSDICT"), (1187, "FILEXATTRSX"),
  (1188, "DEPATTRSDICT"), (1189, "CONFLICTATTRSX"), (1190, "OBSOLETEATTRSX"), (1191, "PROVIDEATTRSX"),
  (1192, "REQUIREATTRSX"), (1193, "BUILDPROVIDES"), (1194, "BUILDOBSOLETES"), (1195, "DBINSTANCE"),
  (1196, "NVRA"), (5000, "FILENAMES"), (5001, "FILEPROVIDE"), (5002, "FILEREQUIRE"),
  (5003, "FSNAMES"), (5004, "FSSIZES"), (5005, "TRIGGERCONDS"), (5006, "TRIGGERTYPE"),
  (5007, "ORIGFILENAMES"), (5008, "LONGFILESIZES"), (5009, "LONGSIZE"), (5010, "FILECAPS"),
  (5011, "FILEDIGESTALGO"), (5012, "BUGURL"), (5013, "EVR"), (5014, "NVR"),
  (5015, "NEVR"), (5016, "NEVRA"), (5017, "HEADERCOLOR"), (5018, "VERBOSE"),
  (5019, "EPOCHNUM"), (5020, "PREINFLAGS"), (5021, "POSTINFLAGS"), (5022, "PREUNFLAGS"),
  (5023, "POSTUNFLAGS"), (5024, "PRETRANSFLAGS"), (5025, "POSTTRANSFLAGS"), (5026, "VERIFYSCRIPTFLAGS"),
  (5027, "TRIGGERSCRIPTFLAGS"), (5029, "COLLECTIONS"), (5030, "POLICYNAMES"), (5031, "POLICYTYPES"),
  (5032, "POLICYTYPESINDEXES"), (5033, "POLICYFLAGS"), (5034, "VCS"), (5035, "ORDERNAME"),
  (5036, "ORDERVERSION"), (5037, "ORDERFLAGS"), (5038, "MSSFMANIFEST"), (5039, "MSSFDOMAIN"),
  (5040, "INSTFILENAMES"), (5041, "REQUIRENEVRS"), (5042, "PROVIDENEVRS"), (5043, "OBSOLETENEVRS"),
  (5044, "CONFLICTNEVRS"), (5045, "FILENLINKS")
]

/-- Big-endian unsigned read of `n` bytes at offset `off`; `none` models
`struct.unpack` hitting the end of the file. -/
def readBE (data : Bytes) (off n : Nat) : Option Nat :=
  if off + n ≤ data.length then
    some (((data.drop off).take n).foldl (fun acc b => acc * 256 + b) 0)
  else none

/-- Two's-complement reinterpretation of an `n`-bit unsigned value (the
signed formats `>b`, `>h`, `>q` of the store reader). -/
def toSigned (v : Nat) (bits : Nat) : Int :=
  if v < 2 ^ (bits - 1) then (v : Int) else (v : Int) - 2 ^ bits

/-- A value decoded from one header store entry: scalar or list of
integers (types 1-5, unwrapped when the count is one), a byte string
(types 1 with count one, 6 and 7) or a list of byte strings (type 8);
`empty` is Python's `None` (type 0 or an unknown type). -/
inductive RpmVal where
  | scalar (v : Int)
  | scalars (vs : List Int)
  | raw (b : Bytes)
  | raws (bs : List Bytes)
  | empty
deriving DecidableEq

/-- Null-terminated string starting at `pos` (store types 6 and 8);
`none` when no zero byte follows before the end of file, where the
Python byte-by-byte read loop would never terminate. -/
def readCString (data : Bytes) (pos : Nat) : Option (Bytes × Nat) :=
  let s := (data.drop pos).takeWhile (fun b => ¬(b = 0))
  if pos + s.length < data.length then some (s, pos + s.length + 1) else none

def readCStrings (data : Bytes) : Nat → Nat → Option (List Bytes)
  | _, 0 => some []
  | pos, n + 1 => do
    let (s, pos₁) ← readCString data pos
    let rest ← readCStrings data pos₁ n
    return s :: rest

/-- Fixed-width big-endian integer sequence (store types 1-5). -/
def readNums (data : Bytes) (pos width : Nat) (signed : Bool) :
    Nat → Option (List Int)
  | 0 => some []
  | n + 1 => do
    let v ← readBE data pos width
    let rest ← readNums data (pos + width) width signed n
    return (if signed then toSigned v (8 * width) else (v : Int)) :: rest

/-- Unwrapping of a count-one integer list to a scalar
(`if len(value) == 1: value = value[0]`). -/
def numsVal (vs : List Int) : RpmVal :=
  match vs with
  | [v] => .scalar v
  | _ => .scalars vs

/-- Decoding of one index entry's value from the data store: the
per-`type` branches of `RpmInfo._read_store`. -/
def readStoreValue (data : Bytes) (base ty off count : Nat) : Option RpmVal :=
  if ty = 0 then some .empty
  else if ty = 1 then
    (readNums data (base + off) 1 false count).map (fun vs =>
      match vs with
      | [v] => .raw [v.toNat]
      | _ => .raws (vs.map (fun v => [v.toNat])))
  else if ty = 2 then (readNums data (base + off) 1 true count).map numsVal
  else if ty = 3 then (readNums data (base + off) 2 true count).map numsVal
  else if ty = 4 then (readNums data (base + off) 4 false count).map numsVal
  else if ty = 5 then (readNums data (base + off) 8 true count).map numsVal
  else if ty = 6 then (readCString data (base + off)).map (fun p => .raw p.1)
  else if ty = 7 then
    if base + off + count ≤ data.length then
      some (.raw ((data.drop (base + off)).take count))
    else none
  else if ty = 8 then (readCStrings data (base + off) count).map .raws
  else some .empty

/-- Python dict assignment on the tag-name map. -/
def dictSet (d : List (String × RpmVal)) (k : String) (v : RpmVal) :
    List (String × RpmVal) :=
  match d with
  | [] => [(k, v)]
  | (k₁, v₁) :: rest =>
    if k₁ = k then (k, v) :: rest else (k₁, v₁) :: dictSet rest k v

/-- `tag in tag_table` / `tag_table[tag]`. -/
def tagLookup (table : List (Nat × String)) (tag : Nat) : Option String :=
  (table.find? (fun p => p.1 = tag)).map (·.2)

/-- The entry loop of `RpmInfo._read_store`: only tags present in the tag
table are retained. -/
def read_store (data : Bytes) (currentOffset : Nat)
    (table : List (Nat × String)) :
    List (Nat × Nat × Nat × Nat) → List (String × RpmVal) →
    Option (List (String × RpmVal))
  | [], result => some result
  | (tag, ty, off, cnt) :: rest, result => do
    let value ← readStoreValue data currentOffset ty off cnt
    let result₁ :=
      match tagLookup table tag with
      | some name => dictSet result name value
      | none => result
    read_store data currentOffset table rest result₁

/-- Python `(addr + (8 - 1)) & -8`: round up to an 8-byte boundary; this
is the seek performed at the end of `RpmInfo._read_store`. -/
def align8 (addr : Nat) : Nat := ((addr + 7) / 8) * 8

/-- Embedding of `RpmInfo._read_header_header`: the 3-byte magic, the
version byte, 4 reserved bytes, and the two big-endian counters. -/
def read_header_header (data : Bytes) (pos : Nat) : Option (Nat × Nat) := do
  let magic ← readBE data pos 3
  if magic = RPM_HEADER_HEADER_MAGIC then
    let _ ← readBE data (pos + 3) 1
    let _ ← readBE data (pos + 4) 4
    let nIndex ← readBE data (pos + 8) 4
    let nData ← readBE data (pos + 12) 4
    return (nIndex, nData)
  else none

/-- Embedding of `RpmInfo._read_index_entry`, iterated: sixteen bytes per
entry giving (tag, type, offset, count). -/
def read_index_entries (data : Bytes) :
    Nat → Nat → Option (List (Nat × Nat × Nat × Nat))
  | _, 0 => some []
  | pos, n + 1 => do
    let tag ← readBE data pos 4
    let ty ← readBE data (pos + 4) 4
    let off ← readBE data (pos + 8) 4
    let cnt ← readBE data (pos + 12) 4
    let rest ← read_index_entries data (pos + 16) n
    return (tag, ty, off, cnt) :: rest

/-- Embedding of `RpmInfo.parse_header`: header-of-headers, the index
entries, then the store; the returned position is the one
`_read_store` seeks to, i.e. the 8-byte-aligned end of the data store
(the alignment is applied by `_read_store` for BOTH headers). -/
def parse_header (data : Bytes) (pos : Nat) (table : List (Nat × String)) :
    Option (List (String × RpmVal) × Nat) := do
  let (nIndex, nData) ← read_header_header data pos
  let entries ← read_index_entries data (pos + 16) nIndex
  let currentOffset := pos + 16 + 16 * nIndex
  let result ← read_store data currentOffset table entries []
  return (result, align8 (currentOffset + nData))

/-- Result of `RpmInfo.parse_file`: the merged tag map and the recorded
`header_start` / `header_end` byte offsets. -/
structure RpmInfoResult where
  header : List (String × RpmVal)
  header_start : Nat
  header_end : Nat
deriving DecidableEq

/-- Python `header.update(signature)`. -/
def dictUpdate (d u : List (String × RpmVal)) : List (String × RpmVal) :=
  u.foldl (fun acc kv => dictSet acc kv.1 kv.2) d

/-- Embedding of `RpmInfo.parse_file`: lead magic and version checks, seek
to byte 96, signature header, `header_start := f.tell()`, main header,
`header_end := f.tell()`. -/
def parse_file (data : Bytes) : Except String RpmInfoResult := do
  let magic ←
    match readBE data 0 4 with
    | some m => Except.ok m
    | none => Except.error "struct.error"
  if magic = RPM_MAGIC then
    let vmaj ←
      match readBE data 4 1 with
      | some v => Except.ok v
      | none => Except.error "struct.error"
    let _ ←
      match readBE data 5 1 with
      | some v => Except.ok v
      | none => Except.error "struct.error"
    -- (ver_major, ver_minor) < (3, 0) reduces to ver_major < 3
    if vmaj < 3 then
      Except.error "RPM file version is less than minimum supported version"
    else
      let sigRes ←
        match parse_header data OLD_STYLE_HEADER_SIZE SIGNATURE_TAG_TABLE with
        | some r => Except.ok r
        | none => Except.error "struct.error"
      let header_start := sigRes.2
      let mainRes ←
        match parse_header data header_start HEADER_TAG_TABLE with
        | some r => Except.ok r
        | none => Except.error "struct.error"
      return ⟨dictUpdate mainRes.1 sigRes.1, header_start, mainRes.2⟩
  else
    Except.error "Not an RPM file"

/-! ### rpmrepo.py: primary.xml emission (`dump_primary`)

RPM packages are records; dependency maps are insertion-ordered
association lists from the (name, epoch, rel, ver) tuple to the entry
dict, and `sorted(dict, key=sort_key)` is a stable merge sort of the
pairs by key. -/

/-- `xml.sax.saxutils.escape`. -/
def escape (s : PyStr) : PyStr :=
  s.flatMap (fun c =>
    if c = '&' then pys "&amp;"
    else if c = '<' then pys "&lt;"
    else if c = '>' then pys "&gt;"
    else [c])

/-- Python `x or ''` on an optional string. -/
def pyOrEmpty (o : Option PyStr) : PyStr :=
  match o with
  | some (c :: rest) => c :: rest
  | _ => []

/-- Python truthiness of an optional string. -/
def truthyOpt (o : Option PyStr) : Bool :=
  match o with
  | some (_ :: _) => true
  | _ => false

/-- Identity tuple (name, epoch, rel, ver) of a dependency entry. -/
abbrev Nerv := PyStr × Option PyStr × Option PyStr × Option PyStr

/-- One dependency dict; `pre` is used only by requires entries. -/
structure DepEntry where
  name : PyStr
  epoch : Option PyStr
  ver : Option PyStr
  rel : Option PyStr
  flags : Option PyStr
  pre : Option PyStr := none
deriving DecidableEq

/-- Python string `<` (code-point lexicographic). -/
def pyStrLt : PyStr → PyStr → Bool
  | [], [] => false
  | [], _ :: _ => true
  | _ :: _, [] => false
  | x :: xs, y :: ys =>
    if x.val < y.val then true
    else if y.val < x.val then false
    else pyStrLt xs ys

/-- Embedding of the local `sort_key` of `dump_primary`: `None` components
are replaced by the empty string. -/
def sort_key (n : Nerv) : PyStr × PyStr × PyStr × PyStr :=
  (n.1, n.2.1.getD [], n.2.2.1.getD [], n.2.2.2.getD [])

/-- Python `<` on the 4-tuples produced by `sort_key`. -/
def sortKeyLt (a b : PyStr × PyStr × PyStr × PyStr) : Bool :=
  if pyStrLt a.1 b.1 then true
  else if pyStrLt b.1 a.1 then false
  else if pyStrLt a.2.1 b.2.1 then true
  else if pyStrLt b.2.1 a.2.1 then false
  else if pyStrLt a.2.2.1 b.2.2.1 then true
  else if pyStrLt b.2.2.1 a.2.2.1 then false
  else pyStrLt a.2.2.2 b.2.2.2

/-- Stable insertion of an element into an ascending list: the element
goes before the first entry that is not strictly smaller. -/
def insortDep (x : Nerv × DepEntry) : List (Nerv × DepEntry) → List (Nerv × DepEntry)
  | [] => [x]
  | y :: ys =>
    if sortKeyLt (sort_key y.1) (sort_key x.1) then y :: insortDep x ys
    else x :: y :: ys

/-- `sorted(deps, key=sort_key)` over the pairs of a dependency map:
Python's sort is stable and ascending, realised here as a stable
insertion sort (structurally recursive so that proofs can evaluate it). -/
def sortDeps : List (Nerv × DepEntry) → List (Nerv × DepEntry)
  | [] => []
  | x :: xs => insortDep x (sortDeps xs)

/-- First index with a numeric character (`str.isnumeric` restricted to
ASCII digits, which is what dependency version tokens contain). -/
def firstDigitIdx : PyStr → Option Nat
  | [] => none
  | c :: rest =>
    if c.isDigit then some 0
    else (firstDigitIdx rest).map (· + 1)

/-- Modelled from the spec: `univers.rpm.compare_rpm_versions` (an external
dependency of `rpmrepo.py`, not part of this repository) compares two
version strings by RPM semantics and returns -1, 0 or 1; this is rpm's
`rpmvercmp`: split into maximal digit or alpha segments (separators are
skipped, a tilde sorts before anything), digit segments compare
numerically and beat alpha segments, and the longer string wins a tie. -/
def compare_rpm_versions (a b : PyStr) : Int :=
  go (a.length + b.length + 1) a b
where
  isAlnum (c : Char) : Bool := c.isDigit || c.isAlpha
  go : Nat → PyStr → PyStr → Int
    | 0, _, _ => 0
    | fuel + 1, a, b =>
      let a := a.dropWhile (fun c => !isAlnum c && !(c = '~'))
      let b := b.dropWhile (fun c => !isAlnum c && !(c = '~'))
      match a, b with
      | '~' :: a', '~' :: b' => go fuel a' b'
      | '~' :: _, _ => -1
      | _, '~' :: _ => 1
      | [], [] => 0
      | [], _ :: _ => -1
      | _ :: _, [] => 1
      | x :: xs, y :: ys =>
        if x.isDigit then
          if y.isDigit then
            let sa := (x :: xs).takeWhile Char.isDigit
            let sb := (y :: ys).takeWhile Char.isDigit
            let na := sa.dropWhile (· = '0')
            let nb := sb.dropWhile (· = '0')
            if na.length < nb.length then -1
            else if nb.length < na.length then 1
            else if pyStrLt na nb then -1
            else if pyStrLt nb na then 1
            else go fuel ((x :: xs).drop sa.length) ((y :: ys).drop sb.length)
          else 1
        else
          if y.isDigit then -1
          else
            let sa := (x :: xs).takeWhile Char.isAlpha
            let sb := (y :: ys).takeWhile Char.isAlpha
            if pyStrLt sa sb then -1
            else if pyStrLt sb sa then 1
            else go fuel ((x :: xs).drop sa.length) ((y :: ys).drop sb.length)

/-- Embedding of `rpmrepo.compare_dependency`: compares two dependency
name strings such as `libc.so.6(GLIBC_2.4)(64bit)` by the parenthesised
version token; 0 = same, 1 = first bigger, 2 = second bigger, -1 = error. -/
def compare_dependency (dep1 dep2 : PyStr) : Int :=
  if dep1 = dep2 then 0
  else
    match pyFindChar '(' dep1, pyFindChar '(' dep2 with
    | none, none => 0
    | none, some _ => 2
    | some _, none => 1
    | some i1, some i2 =>
      let ver1 := dep1.drop i1
      let ver2 := dep2.drop i2
      match pyFindChar ')' ver1, pyFindChar ')' ver2 with
      | none, none => -1
      | none, some _ => 2
      | some _, none => 1
      | some e1, some e2 =>
        let ver1_e := ver1.drop e1
        let ver2_e := ver2.drop e2
        let v1 := dep1.drop (i1 + 1)
        let v2 := dep2.drop (i2 + 1)
        if v1 = ver1_e ∧ v2 = ver2_e then 0
        else if v1 = ver1_e then 2
        else if v2 = ver2_e then 1
        else
          -- a missing numeric index leaves the string unchanged
          -- (`s[None:] == s`)
          let w1 := v1.drop ((firstDigitIdx v1).getD 0)
          let w2 := v2.drop ((firstDigitIdx v2).getD 0)
          let w1 := w1.take (w1.length - ver1_e.length)
          let w2 := w2.take (w2.length - ver2_e.length)
          let ret1 := compare_rpm_versions w1 w2
          if ret1 = -1 then 2 else ret1

/-- Attribute string of a `<rpm:entry>`: the name plus every component of
the given list that is not `None` (an empty string IS emitted). -/
def entryAttrs (name : PyStr) (comps : List (String × Option PyStr)) : PyStr :=
  pyJoinChar ' '
    ((pys "name=\"" ++ name ++ pys "\"") ::
      comps.filterMap (fun p =>
        p.2.map (fun v => pys p.1 ++ pys "=\"" ++ v ++ pys "\"")))

/-- Embedding of `rpmrepo.add_requires_entry`. -/
def add_requires_entry (res : PyStr) (r : DepEntry) : PyStr :=
  res ++ pys "      <rpm:entry "
    ++ escape (entryAttrs r.name
        [("flags", r.flags), ("epoch", r.epoch), ("ver", r.ver),
         ("rel", r.rel), ("pre", r.pre)])
    ++ pys "/>\n"

/-- Entry line of the provides/obsoletes/conflicts loops of
`dump_primary` (components flags, epoch, ver, rel). -/
def dump_dep_entry (e : DepEntry) : PyStr :=
  pys "      <rpm:entry "
    ++ escape (entryAttrs e.name
        [("flags", e.flags), ("epoch", e.epoch), ("ver", e.ver),
         ("rel", e.rel)])
    ++ pys "/>\n"

/-- The requires loop of `dump_primary` with the `libc.so.6` folding
state: a pending highest libc entry is emitted when a non-libc entry is
reached; at the end of the loop a still-pending entry is dropped. -/
def requiresLoop (res : PyStr) (libcHighest : Option DepEntry) :
    List DepEntry → PyStr
  | [] => res
  | r :: rest =>
    if pyStartswith (pys "libc.so.6") r.name then
      match libcHighest with
      | none => requiresLoop res (some r) rest
      | some h =>
        if compare_dependency h.name r.name = 2 then
          requiresLoop res (some r) rest
        else
          requiresLoop res (some h) rest
    else
      match libcHighest with
      | some h =>
        requiresLoop (add_requires_entry (add_requires_entry res h) r) none rest
      | none => requiresLoop (add_requires_entry res r) none rest

/-- Embedding of `rpmrepo.is_primary_file`. -/
def is_primary_file (file_name : PyStr) : Bool :=
  if pyStartswith (pys "/etc/") file_name then true
  else if file_name = pys "/usr/lib/sendmail" then true
  else if pyContains (pys "bin/") file_name then true
  else false

/-- The `version` dict of a package. -/
structure RpmVersion where
  epoch : Option PyStr
  ver : Option PyStr
  rel : Option PyStr
deriving DecidableEq

/-- One file entry of the format dict (`type` is `file` or `dir`). -/
structure FileEntry where
  ftype : PyStr
  name : PyStr
deriving DecidableEq

/-- The `format` sub-dict of a primary package. -/
structure RpmFmt where
  license : PyStr
  vendor : Option PyStr
  group : Option PyStr
  buildhost : PyStr
  sourcerpm : PyStr
  header_start : PyStr
  header_end : PyStr
  provides : List (Nerv × DepEntry)
  requires : List (Nerv × DepEntry)
  obsoletes : List (Nerv × DepEntry)
  conflicts : List (Nerv × DepEntry)
  files : List FileEntry
deriving DecidableEq

/-- One primary package record. -/
structure RpmPkg where
  checksum : PyStr
  name : PyStr
  arch : PyStr
  version : RpmVersion
  summary : Option PyStr
  description : Option PyStr
  packager : Option PyStr
  url : Option PyStr
  file_time : PyStr
  build_time : PyStr
  package_size : PyStr
  installed_size : PyStr
  archive_size : PyStr
  location : PyStr
  format : RpmFmt
deriving DecidableEq

/-- The `<version .../>` line shared by the dump functions: components
`epoch`, `ver`, `rel` are emitted only when truthy. -/
def versionLine (v : RpmVersion) : PyStr :=
  pys "  <version "
    ++ pyJoinChar ' '
      ([("epoch", v.epoch), ("ver", v.ver), ("rel", v.rel)].filterMap
        (fun p =>
          if truthyOpt p.2 then
            some (pys p.1 ++ pys "=\"" ++ pyOrEmpty p.2 ++ pys "\"")
          else none))
    ++ pys "/>\n"

/-- Per-package body of `rpmrepo.dump_primary`, following the emission
order of the source line by line. -/
def dump_package (package : RpmPkg) : PyStr :=
  let fmt := package.format
  pys "<package type=\"rpm\">\n"
  ++ pys "  <name>" ++ package.name ++ pys "</name>\n"
  ++ pys "  <arch>" ++ package.arch ++ pys "</arch>\n"
  ++ versionLine package.version
  ++ pys "  <checksum type=\"sha256\" pkgid=\"YES\">" ++ package.checksum
    ++ pys "</checksum>\n"
  ++ pys "  <summary>" ++ escape (pyOrEmpty package.summary) ++ pys "</summary>\n"
  ++ pys "  <description>" ++ escape (pyOrEmpty package.description)
    ++ pys "</description>\n"
  ++ pys "  <packager>" ++ escape (pyOrEmpty package.packager) ++ pys "</packager>\n"
  ++ pys "  <url>" ++ pyOrEmpty package.url ++ pys "</url>\n"
  ++ pys "  <time file=\"" ++ package.file_time ++ pys "\" build=\""
    ++ package.build_time ++ pys "\"/>\n"
  ++ pys "  <size package=\"" ++ package.package_size ++ pys "\" installed=\""
    ++ package.installed_size ++ pys "\" archive=\"" ++ package.archive_size
    ++ pys "\"/>\n"
  ++ pys "  <location href=\"" ++ package.location ++ pys "\"/>\n"
  ++ pys "  <format>\n"
  ++ pys "    <rpm:license>" ++ escape fmt.license ++ pys "</rpm:license>\n"
  ++ (if truthyOpt fmt.vendor then
        pys "    <rpm:vendor>" ++ escape (pyOrEmpty fmt.vendor)
          ++ pys "</rpm:vendor>\n"
      else [])
  ++ pys "    <rpm:group>" ++ pyOrEmpty fmt.group ++ pys "</rpm:group>\n"
  ++ pys "    <rpm:buildhost>" ++ fmt.buildhost ++ pys "</rpm:buildhost>\n"
  ++ pys "    <rpm:sourcerpm>" ++ fmt.sourcerpm ++ pys "</rpm:sourcerpm>\n"
  ++ pys "    <rpm:header-range start=\"" ++ fmt.header_start ++ pys "\" end=\""
    ++ fmt.header_end ++ pys "\"/>\n"
  ++ pys "    <rpm:provides>\n"
  ++ ((sortDeps fmt.provides).map (fun p => dump_dep_entry p.2)).flatten
  ++ pys "    </rpm:provides>\n"
  ++ pys "    <rpm:requires>\n"
  ++ requiresLoop [] none ((sortDeps fmt.requires).map (·.2))
  ++ pys "    </rpm:requires>\n"
  ++ pys "    <rpm:obsoletes>\n"
  ++ ((sortDeps fmt.obsoletes).map (fun p => dump_dep_entry p.2)).flatten
  ++ pys "    </rpm:obsoletes>\n"
  ++ (if fmt.conflicts.isEmpty then []
      else
        pys "    <rpm:conflicts>\n"
        ++ ((sortDeps fmt.conflicts).map (fun p => dump_dep_entry p.2)).flatten
        ++ pys "    </rpm:conflicts>\n")
  ++ ((fmt.files.filter (fun file => is_primary_file file.name)).map
      (fun file =>
        if file.ftype = pys "dir" then
          pys "  <file type=\"dir\">" ++ file.name ++ pys "</file>\n"
        else if file.ftype = pys "file" then
          pys "  <file>" ++ file.name ++ pys "</file>\n"
        else [])).flatten
  ++ pys "  </format>\n"
  ++ pys "</package>\n"

/-- Embedding of `rpmrepo.dump_primary`: the metadata envelope around one
`dump_package` body per map entry, in insertion order. -/
def dump_primary (primary : List (Nerv × RpmPkg)) : PyStr :=
  pys "<?xml version=\"1.0\" encoding=\"UTF-8\"?>\n"
  ++ pys "<metadata xmlns=\"http://linux.duke.edu/metadata/common\" "
  ++ pys "xmlns:rpm=\"http://linux.duke.edu/metadata/rpm\" packages=\""
  ++ pys (toString primary.length) ++ pys "\">\n"
  ++ (primary.map (fun p => dump_package p.2)).flatten
  ++ pys "</metadata>\n"

/-! ### debrepo.py: `.deb` control extraction (`Package.parse_deb`)

The `ar(5)` archive and the shell pipelines are modelled structurally:
`ar t deb | grep control.tar.gz` is a containment test over the member
names, `ar -p deb NAME` extracts the member with exactly that name, and
the `tar -xzf` / `tar -xJf` stage succeeds only when the decompressor
matches the member's actual compression. -/

/-- Inner compression of a `control.tar.*` member. -/
inductive TarComp where
  | gz
  | xz
  | zst
deriving DecidableEq

/-- One member of the `ar(5)` archive: name, compression, and the inner
tar entries (name to content). -/
structure ArMember where
  name : PyStr
  comp : TarComp
  entries : List (PyStr × PyStr)
deriving DecidableEq

/-- A `.deb` file is its list of archive members. -/
abbrev DebFile := List ArMember

/-- `ar -p deb NAME`: the member with exactly that name. -/
def arExtract (deb : DebFile) (n : PyStr) : Option ArMember :=
  deb.find? (fun m => m.name = n)

/-- The `tar -x?f - --to-stdout ./control` stage: the decompressor must
match the member's compression and the inner tar must hold `./control`. -/
def tarExtractControl (m : ArMember) (comp : TarComp) : Option PyStr :=
  if m.comp = comp then
    (m.entries.find? (fun e => e.1 = pys "./control")).map (·.2)
  else none

/-- Embedding of `debrepo.Package.parse_deb`: if the member listing
contains `control.tar.gz` the gzip pipeline runs, otherwise the xz
pipeline runs on `control.tar.xz`; no other compression is attempted.
`Except.error` models the `CalledProcessError` of a failing pipeline. -/
def Package.parse_deb (deb : DebFile) : Except String ODict := do
  let control ←
    if deb.any (fun m => pyContains (pys "control.tar.gz") m.name) then
      match arExtract deb (pys "control.tar.gz") with
      | some m =>
        match tarExtractControl m TarComp.gz with
        | some c => Except.ok c
        | none => Except.error "CalledProcessError: tar -xzf"
      | none => Except.error "CalledProcessError: ar -p"
    else
      match arExtract deb (pys "control.tar.xz") with
      | some m =>
        match tarExtractControl m TarComp.xz with
        | some c => Except.ok c
        | none => Except.error "CalledProcessError: tar -xJf"
      | none => Except.error "CalledProcessError: ar -p"
  match Package.parse_string (pyStrip control) with
  | some fields => Except.ok fields
  | none => Except.error "ValueError"

/-! ### debrepo.py: the per-artifact parse step of the driver loops

The storage walk, mtime comparison and download of `process_packages`
and `process_sources` are abstracted into the input list: each element
is the path of one artifact that reached the parse step together with
the outcome of parsing its downloaded copy.  What is kept faithfully is
the control flow around the parse: `process_packages` wraps
`package.parse_deb` in `try/except` and, under `force`, records the path
in the per-dist malformed list and continues; `process_sources` has no
`force` parameter and no `try` around `source.parse_dsc`, so any parse
exception propagates and aborts the run. -/

/-- Outcome of downloading and parsing one pool artifact. -/
inductive ParseOutcome where
  | ok (fields : ODict)
  | err (msg : String)
deriving DecidableEq

/-- The parse/collect slice of `debrepo.process_packages`: returns the
parsed units and the malformed list. -/
def process_packages (force : Bool) :
    List (PyStr × ParseOutcome) → Except String (List ODict × List PyStr)
  | [] => .ok ([], [])
  | (path, out) :: rest =>
    match out with
    | .ok fields => do
      let (units, malformed) ← process_packages force rest
      return (fields :: units, malformed)
    | .err msg =>
      if force then do
        let (units, malformed) ← process_packages force rest
        return (units, path :: malformed)
      else .error msg

/-- The parse/collect slice of `debrepo.process_sources`: no `force`
parameter exists and a parse failure is not caught. -/
def process_sources :
    List (PyStr × ParseOutcome) → Except String (List ODict)
  | [] => .ok []
  | (_, out) :: rest =>
    match out with
    | .ok fields => do
      let units ← process_sources rest
      return fields :: units
    | .err msg => .error msg

/-! ### Concrete inputs used by the claim theorems -/

/-- The folding of a libc requires run performed by the requires loop:
the entry kept after comparing names with `compare_dependency`. -/
def foldHighest : DepEntry → List DepEntry → DepEntry
  | h, [] => h
  | h, r :: rest =>
    if compare_dependency h.name r.name = 2 then foldHighest r rest
    else foldHighest h rest

/-- A flagless requires entry with only a name (as produced for
versionless dependencies such as shared-library requires). -/
def libcReq (n : String) : DepEntry :=
  { name := pys n, epoch := none, ver := none, rel := none,
    flags := none, pre := none }

/-- A primary package whose requires are libc entries only (the libc run
is last in sorted order). -/
def libcOnlyFmt : RpmFmt where
  license := pys "MIT"
  vendor := none
  group := none
  buildhost := pys "h"
  sourcerpm := pys "s.src.rpm"
  header_start := pys "0"
  header_end := pys "1"
  provides := []
  requires := [
    ((pys "libc.so.6()(64bit)", none, none, none),
      libcReq "libc.so.6()(64bit)"),
    ((pys "libc.so.6(GLIBC_2.2.5)(64bit)", none, none, none),
      libcReq "libc.so.6(GLIBC_2.2.5)(64bit)"),
    ((pys "libc.so.6(GLIBC_2.4)(64bit)", none, none, none),
      libcReq "libc.so.6(GLIBC_2.4)(64bit)")]
  obsoletes := []
  conflicts := []
  files := []

def libcOnlyPkg : RpmPkg where
  checksum := pys "c"
  name := pys "p"
  arch := pys "x86_64"
  version := { epoch := none, ver := some (pys "1"), rel := none }
  summary := none
  description := none
  packager := none
  url := none
  file_time := pys "0"
  build_time := pys "0"
  package_size := pys "1"
  installed_size := pys "1"
  archive_size := pys "1"
  location := pys "P/p.rpm"
  format := libcOnlyFmt

/-- A primary package carrying XML special characters in the escaped
fields of the seed scenario and in the unescaped url, location and
primary-file payloads. -/
def escCexFmt : RpmFmt where
  license := pys "MIT & MIT"
  vendor := some (pys "Foo&Bar")
  group := none
  buildhost := pys "h"
  sourcerpm := pys "s.src.rpm"
  header_start := pys "0"
  header_end := pys "1"
  provides := []
  requires := []
  obsoletes := []
  conflicts := []
  files := [{ ftype := pys "file", name := pys "/etc/a&b" }]

def escCexPkg : RpmPkg where
  checksum := pys "c"
  name := pys "p"
  arch := pys "x86_64"
  version := { epoch := none, ver := some (pys "1"), rel := none }
  summary := some (pys "foo & bar")
  description := some (pys "<foo>")
  packager := some (pys "<bar>&<foo>")
  url := some (pys "http://a&b/")
  file_time := pys "0"
  build_time := pys "0"
  package_size := pys "1"
  installed_size := pys "1"
  archive_size := pys "1"
  location := pys "x/a&b.rpm"
  format := escCexFmt

/-- Bytes of a minimal RPM whose main-header data store is one byte long,
so that the store end (129) is not 8-byte aligned: a 96-byte lead with
magic and version 3.0, a signature header with no entries and no data,
and a main header with no entries and one data byte. -/
def rpmCexBytes : Bytes :=
  [0xed, 0xab, 0xee, 0xdb, 3, 0] ++ List.replicate 90 0
    ++ [0x8e, 0xad, 0xe8, 1, 0, 0, 0, 0, 0, 0, 0, 0, 0, 0, 0, 0]
    ++ [0x8e, 0xad, 0xe8, 1, 0, 0, 0, 0, 0, 0, 0, 0, 0, 0, 0, 1]

/-- A well-formed source stanza with an ordinary field and a
checksum-list field whose colon line carries no value. -/
def c4StanzaFields : List SrcField :=
  [{ key := pys "Package", firstVal := pys "foo", conts := [] },
   { key := pys "Checksums-Sha1", firstVal := [],
     conts := [pys "abc 1 f", pys "de 2 g"] }]

/-! ### Helper lemmas about the string primitives -/

theorem dropWhile_eq_self_of_head {p : Char → Bool} :
    ∀ {l : PyStr}, (∀ x ∈ l.head?, p x = false) → l.dropWhile p = l
  | [], _ => rfl
  | c :: rest, h => by
    have hc : p c = false := h c rfl
    simp [List.dropWhile, hc]

theorem stripBoth_eq_self {p : Char → Bool} {l : PyStr}
    (h1 : ∀ x ∈ l.head?, p x = false) (h2 : ∀ x ∈ l.getLast?, p x = false) :
    ((l.dropWhile p).reverse.dropWhile p).reverse = l := by
  have e1 : l.dropWhile p = l := dropWhile_eq_self_of_head h1
  rw [e1]
  have h2' : ∀ x ∈ l.reverse.head?, p x = false := by
    intro x hx
    exact h2 x (by simpa using hx)
  rw [dropWhile_eq_self_of_head h2']
  exact l.reverse_reverse

theorem pyStrip_eq_self {l : PyStr}
    (h1 : ∀ x ∈ l.head?, isPyWsp x = false)
    (h2 : ∀ x ∈ l.getLast?, isPyWsp x = false) : pyStrip l = l :=
  stripBoth_eq_self h1 h2

theorem pyStripSpaces_eq_self {l : PyStr}
    (h1 : ∀ x ∈ l.head?, ¬(x = ' '))
    (h2 : ∀ x ∈ l.getLast?, ¬(x = ' ')) : pyStripSpaces l = l :=
  @stripBoth_eq_self (fun c => c = ' ') _
    (fun x hx => by simpa using h1 x hx)
    (fun x hx => by simpa using h2 x hx)

theorem pySplitColon1_append : ∀ (k : PyStr), ':' ∉ k →
    ∀ r, pySplitColon1 (k ++ ':' :: r) = some (k, r)
  | [], _, r => by simp [pySplitColon1]
  | c :: rest, h, r => by
    have hc : ¬(c = ':') := fun hh => h (hh ▸ List.mem_cons_self c rest)
    have ih := pySplitColon1_append rest (fun hm => h (List.mem_cons_of_mem c hm)) r
    simp [pySplitColon1, hc, ih]

theorem pySplitChar_of_notMem {sep : Char} :
    ∀ {l : PyStr}, sep ∉ l → pySplitChar sep l = [l]
  | [], _ => rfl
  | c :: rest, h => by
    have hc : ¬(c = sep) := fun hh => h (hh ▸ List.mem_cons_self c rest)
    have ih := @pySplitChar_of_notMem sep rest (fun hm => h (List.mem_cons_of_mem c hm))
    simp [pySplitChar, hc, ih]

theorem pySplitChar_ne_nil (sep : Char) : ∀ l : PyStr, pySplitChar sep l ≠ []
  | [] => by simp [pySplitChar]
  | c :: rest => by
    simp only [pySplitChar]
    split <;> simp

theorem pySplitChar_append_sep (sep : Char) :
    ∀ (l : PyStr), sep ∉ l →
      ∀ r, pySplitChar sep (l ++ sep :: r) = l :: pySplitChar sep r
  | [], _, r => by simp [pySplitChar]
  | c :: rest, h, r => by
    have hc : ¬(c = sep) := fun hh => h (hh ▸ List.mem_cons_self c rest)
    have ih := pySplitChar_append_sep sep rest (fun hm => h (List.mem_cons_of_mem c hm)) r
    have hne : pySplitChar sep r ≠ [] := pySplitChar_ne_nil sep r
    show pySplitChar sep (c :: (rest ++ sep :: r)) = (c :: rest) :: pySplitChar sep r
    rw [pySplitChar]
    simp only [if_neg hc, ih]
    cases hr : pySplitChar sep r with
    | nil => exact absurd hr hne
    | cons a t => simp [List.headI]

theorem pySplitChar_joinChar {sep : Char} :
    ∀ (lines : List PyStr), lines ≠ [] → (∀ l ∈ lines, sep ∉ l) →
      pySplitChar sep (pyJoinChar sep lines) = lines
  | [], hne, _ => absurd rfl hne
  | [l], _, h => by
    simpa [pyJoinChar] using pySplitChar_of_notMem (h l (by simp))
  | l :: m :: rest, _, h => by
    have ih := pySplitChar_joinChar (m :: rest) (by simp)
      (fun x hx => h x (List.mem_cons_of_mem l hx))
    show pySplitChar sep (l ++ sep :: pyJoinChar sep (m :: rest)) = _
    rw [pySplitChar_append_sep sep l (h l (by simp)), ih]

theorem pyJoinChar_append (sep : Char) :
    ∀ (l₁ l₂ : List PyStr), l₁ ≠ [] → l₂ ≠ [] →
      pyJoinChar sep (l₁ ++ l₂) = pyJoinChar sep l₁ ++ sep :: pyJoinChar sep l₂
  | [], _, h, _ => absurd rfl h
  | [a], l₂, _, h₂ => by
    match l₂, h₂ with
    | b :: t, _ => rfl
  | a :: b :: t, l₂, _, h₂ => by
    have ih := pyJoinChar_append sep (b :: t) l₂ (by simp) h₂
    show a ++ sep :: pyJoinChar sep ((b :: t) ++ l₂)
        = (a ++ sep :: pyJoinChar sep (b :: t)) ++ sep :: pyJoinChar sep l₂
    rw [ih]
    simp

theorem pyJoinChar_ne_nil {sep : Char} :
    ∀ (lines : List PyStr), lines ≠ [] → (∀ l ∈ lines, l ≠ []) →
      pyJoinChar sep lines ≠ []
  | [], h, _ => absurd rfl h
  | [l], _, h => by simpa [pyJoinChar] using h l (by simp)
  | l :: m :: rest, _, h => by
    have hl : l ≠ [] := h l (by simp)
    show l ++ sep :: pyJoinChar sep (m :: rest) ≠ []
    intro hc
    exact hl (List.append_eq_nil.mp hc).1

theorem head?_pyJoinChar {sep : Char} (lines : List PyStr) (l : PyStr)
    (h : lines.head? = some l) (hne : l ≠ []) :
    (pyJoinChar sep lines).head? = l.head? := by
  cases lines with
  | nil => cases h
  | cons l' rest =>
    have hl : l' = l := by simpa using h
    cases rest with
    | nil => rw [show pyJoinChar sep [l'] = l' from rfl, hl]
    | cons m t =>
      rw [show pyJoinChar sep (l' :: m :: t) = l' ++ sep :: pyJoinChar sep (m :: t) from rfl,
        hl]
      obtain ⟨c, cs, rfl⟩ := List.exists_cons_of_ne_nil hne
      rfl

theorem getLast?_pyJoinChar (sep : Char) :
    ∀ (lines : List PyStr), (∀ l ∈ lines, l ≠ []) →
      ∀ l, lines.getLast? = some l →
      (pyJoinChar sep lines).getLast? = l.getLast?
  | [l'], _, l, h => by
    have : l' = l := by simpa using h
    subst this
    rfl
  | l' :: m :: rest, hne, l, h => by
    have ih := getLast?_pyJoinChar sep (m :: rest)
      (fun x hx => hne x (List.mem_cons_of_mem l' hx)) l
      (by simpa using h)
    have hjoin : pyJoinChar sep (m :: rest) ≠ [] :=
      pyJoinChar_ne_nil (m :: rest) (by simp)
        (fun x hx => hne x (List.mem_cons_of_mem l' hx))
    show (l' ++ sep :: pyJoinChar sep (m :: rest)).getLast? = l.getLast?
    rw [List.getLast?_append_of_ne_nil _ (by simp)]
    cases hj : pyJoinChar sep (m :: rest) with
    | nil => exact absurd hj hjoin
    | cons a t =>
      rw [hj] at ih
      rw [List.getLast?_cons_cons]
      exact ih


theorem pyStartswith_space_cons (b : Char) (l : PyStr) :
    pyStartswith (pys " ") (b :: l) = decide (b = ' ') := by
  have hp : pys " " = [' '] := rfl
  simp [pyStartswith, hp, List.take]

theorem srcLoop_conts :
    ∀ (cs : List PyStr) (k v : PyStr) (acc : ODict) (rest : List PyStr),
      srcLoop (some k) (some v) acc ((cs.map (fun c => ' ' :: c)) ++ rest)
        = srcLoop (some k) (some (v ++ cs.flatMap (fun c => '\n' :: ' ' :: c)))
            acc rest
  | [], k, v, acc, rest => by simp
  | c :: cs, k, v, acc, rest => by
    have ih := srcLoop_conts cs k (v ++ '\n' :: ' ' :: c) acc rest
    show srcLoop (some k) (some v) acc ((' ' :: c) :: (cs.map _ ++ rest)) = _
    rw [srcLoop, pyStartswith_space_cons]
    simp only [decide_eq_true_eq, if_true]
    show srcLoop (some k) (some (pyFormatOpt (some v) ++ '\n' :: ' ' :: c)) acc
        (cs.map (fun c => ' ' :: c) ++ rest) = _
    rw [show pyFormatOpt (some v) = v from rfl, ih]
    simp

theorem srcLoop_fields :
    ∀ (fs : List SrcField), (∀ f ∈ fs, WFField f) →
      ∀ (k₀ v₀ : PyStr) (done : ODict),
        srcLoop (some k₀) (some v₀) done (fs.flatMap fieldLines)
          = some (fs.foldl
              (fun acc f => odSet acc f.key (pyStripSpaces (rawValueFull f)))
              (odSet done k₀ (pyStripSpaces v₀)))
  | [], _, k₀, v₀, done => rfl
  | f :: fs, hwf, k₀, v₀, done => by
    obtain ⟨hkne, hknl, hkcolon, hkhead, hksrc, _, _, _, _, _⟩ :=
      hwf f (List.mem_cons_self f fs)
    obtain ⟨b, k', hk⟩ := List.exists_cons_of_ne_nil hkne
    have hbspace : ¬(b = ' ') := by
      intro hb
      have := hkhead b (by rw [hk]; rfl)
      rw [hb] at this
      simp [isPyWsp] at this
    have ih := srcLoop_fields fs (fun g hg => hwf g (List.mem_cons_of_mem f hg))
      f.key (rawValueFull f) (odSet done k₀ (pyStripSpaces v₀))
    show srcLoop (some k₀) (some v₀) done
        ((f.key ++ ':' :: (if f.firstVal = [] then [] else ' ' :: f.firstVal))
          :: (f.conts.map (fun c => ' ' :: c) ++ fs.flatMap fieldLines)) = _
    rw [srcLoop]
    have hcl : f.key ++ ':' :: (if f.firstVal = [] then [] else ' ' :: f.firstVal)
        = b :: (k' ++ ':' :: (if f.firstVal = [] then [] else ' ' :: f.firstVal)) := by
      rw [hk]; rfl
    rw [hcl, pyStartswith_space_cons]
    simp only [decide_eq_true_eq]
    rw [if_neg hbspace]
    rw [← hcl, pySplitColon1_append f.key hkcolon]
    show srcLoop (some (sourceRename f.key))
        (some (if f.firstVal = [] then [] else ' ' :: f.firstVal))
        (odSet done k₀ (pyStripSpaces v₀))
        (f.conts.map (fun c => ' ' :: c) ++ fs.flatMap fieldLines) = _
    rw [show sourceRename f.key = f.key from if_neg hksrc]
    rw [srcLoop_conts]
    rw [show (if f.firstVal = [] then [] else ' ' :: f.firstVal) ++
          f.conts.flatMap (fun c => '\n' :: ' ' :: c) = rawValueFull f from rfl]
    rw [ih]
    rfl

theorem srcLoop_start (f : SrcField) (fs : List SrcField)
    (hwf : ∀ g ∈ f :: fs, WFField g) :
    srcLoop none none [] ((f :: fs).flatMap fieldLines)
      = some ((f :: fs).foldl
          (fun acc g => odSet acc g.key (pyStripSpaces (rawValueFull g))) []) := by
  obtain ⟨hkne, hknl, hkcolon, hkhead, hksrc, _, _, _, _, _⟩ :=
    hwf f (List.mem_cons_self f fs)
  obtain ⟨b, k', hk⟩ := List.exists_cons_of_ne_nil hkne
  have hbspace : ¬(b = ' ') := by
    intro hb
    have := hkhead b (by rw [hk]; rfl)
    rw [hb] at this
    simp [isPyWsp] at this
  have ih := srcLoop_fields fs (fun g hg => hwf g (List.mem_cons_of_mem f hg))
    f.key (rawValueFull f) []
  show srcLoop none none []
      ((f.key ++ ':' :: (if f.firstVal = [] then [] else ' ' :: f.firstVal))
        :: (f.conts.map (fun c => ' ' :: c) ++ fs.flatMap fieldLines)) = _
  rw [srcLoop]
  have hcl : f.key ++ ':' :: (if f.firstVal = [] then [] else ' ' :: f.firstVal)
      = b :: (k' ++ ':' :: (if f.firstVal = [] then [] else ' ' :: f.firstVal)) := by
    rw [hk]; rfl
  rw [hcl, pyStartswith_space_cons]
  simp only [decide_eq_true_eq]
  rw [if_neg hbspace]
  rw [← hcl, pySplitColon1_append f.key hkcolon]
  show srcLoop (some (sourceRename f.key))
      (some (if f.firstVal = [] then [] else ' ' :: f.firstVal)) []
      (f.conts.map (fun c => ' ' :: c) ++ fs.flatMap fieldLines) = _
  rw [show sourceRename f.key = f.key from if_neg hksrc]
  rw [srcLoop_conts]
  rw [show (if f.firstVal = [] then [] else ' ' :: f.firstVal) ++
        f.conts.flatMap (fun c => '\n' :: ' ' :: c) = rawValueFull f from rfl]
  rw [ih]
  rfl

theorem odSet_append : ∀ (d : ODict) (k v : PyStr), k ∉ d.map Prod.fst →
    odSet d k v = d ++ [(k, v)]
  | [], _, _, _ => rfl
  | (k', v') :: rest, k, v, h => by
    have hk : ¬(k' = k) := by
      intro hh
      exact h (by simp [hh])
    have ih := odSet_append rest k v (fun hm => h (List.mem_cons_of_mem _ hm))
    simp [odSet, hk, ih]

theorem foldl_odSet_eq_append :
    ∀ (fs : List SrcField) (done : ODict),
      (∀ f ∈ fs, f.key ∉ done.map Prod.fst) →
      ((fs.map SrcField.key).Nodup) →
      fs.foldl (fun acc f => odSet acc f.key (pyStripSpaces (rawValueFull f))) done
        = done ++ fs.map (fun f => (f.key, pyStripSpaces (rawValueFull f)))
  | [], done, _, _ => by simp
  | f :: fs, done, hfresh, hnd => by
    have h1 : f.key ∉ done.map Prod.fst := hfresh f (List.mem_cons_self f fs)
    have hnd' : (∀ x ∈ fs, ¬x.key = f.key) ∧ (fs.map SrcField.key).Nodup := by
      simpa using hnd
    have hfresh' : ∀ g ∈ fs,
        g.key ∉ (done ++ [(f.key, pyStripSpaces (rawValueFull f))]).map Prod.fst := by
      intro g hg
      simp only [List.map_append, List.mem_append]
      rintro (hmem | hmem)
      · exact hfresh g (List.mem_cons_of_mem f hg) hmem
      · simp at hmem
        exact hnd'.1 g hg hmem
    have ih := foldl_odSet_eq_append fs
      (done ++ [(f.key, pyStripSpaces (rawValueFull f))]) hfresh' hnd'.2
    simp only [List.foldl_cons, odSet_append done f.key _ h1, ih]
    simp

/-- A non-whitespace character is not a space. -/
theorem ne_space_of_not_wsp {x : Char} (h : isPyWsp x = false) : ¬(x = ' ') := by
  intro he
  rw [he] at h
  simp [isPyWsp] at h

theorem flatCont_ne_nil : ∀ (cs : List PyStr), cs ≠ [] →
    cs.flatMap (fun c => '\n' :: ' ' :: c) ≠ []
  | [], h => absurd rfl h
  | c :: cs, _ => by simp

theorem getLast?_flatCont :
    ∀ (cs : List PyStr), (∀ c ∈ cs, GoodLine c) → cs ≠ [] →
      ∀ x ∈ (cs.flatMap (fun c => '\n' :: ' ' :: c)).getLast?, isPyWsp x = false
  | [], _, hne => absurd rfl hne
  | [c], hg, _ => by
    obtain ⟨hcne, _, hlast⟩ := hg c (by simp)
    intro x hx
    apply hlast
    have e : ([c].flatMap (fun c => '\n' :: ' ' :: c)) = ['\n', ' '] ++ c := by simp
    rw [e, List.getLast?_append_of_ne_nil _ hcne] at hx
    exact hx
  | c :: c' :: cs, hg, _ => by
    intro x hx
    have ih := getLast?_flatCont (c' :: cs)
      (fun d hd => hg d (List.mem_cons_of_mem c hd)) (by simp)
    apply ih
    have hne := flatCont_ne_nil (c' :: cs) (by simp)
    have e : ((c :: c' :: cs).flatMap (fun c => '\n' :: ' ' :: c))
        = ('\n' :: ' ' :: c) ++ (c' :: cs).flatMap (fun c => '\n' :: ' ' :: c) := by
      simp
    rw [e, List.getLast?_append_of_ne_nil _ hne] at hx
    exact hx

theorem head?_flatCont (cs : List PyStr) (h : cs ≠ []) :
    (cs.flatMap (fun c => '\n' :: ' ' :: c)).head? = some '\n' := by
  cases cs with
  | nil => exact absurd rfl h
  | cons c t => simp

theorem pyStripSpaces_cons_space (l : PyStr) :
    pyStripSpaces (' ' :: l) = pyStripSpaces l := by
  have h : List.dropWhile (fun x => decide (x = ' ')) (' ' :: l)
      = List.dropWhile (fun x => decide (x = ' ')) l := by
    rw [List.dropWhile_cons]
    simp
  show ((List.dropWhile _ (' ' :: l)).reverse.dropWhile _).reverse = pyStripSpaces l
  rw [h]
  rfl

/-- The flush-time strip of a well-formed field's raw value produces
exactly the described stored value. -/
theorem pyStripSpaces_rawValueFull (f : SrcField) (hf : WFField f) :
    pyStripSpaces (rawValueFull f) = storedValue f := by
  obtain ⟨_, _, _, _, _, hfvnl, hempty, hfvhead, hfvlast, hconts⟩ := hf
  by_cases hfv : f.firstVal = []
  · have hcs := hempty hfv
    have e : rawValueFull f = f.conts.flatMap (fun c => '\n' :: ' ' :: c) := by
      simp [rawValueFull, hfv]
    have e2 : storedValue f = f.conts.flatMap (fun c => '\n' :: ' ' :: c) := by
      simp [storedValue, hfv]
    rw [e, e2]
    apply pyStripSpaces_eq_self
    · intro x hx
      rw [head?_flatCont f.conts hcs] at hx
      cases hx
      decide
    · intro x hx
      exact ne_space_of_not_wsp (getLast?_flatCont f.conts hconts hcs x hx)
  · obtain ⟨b, t, hb⟩ := List.exists_cons_of_ne_nil hfv
    have e : rawValueFull f
        = ' ' :: (f.firstVal ++ f.conts.flatMap (fun c => '\n' :: ' ' :: c)) := by
      simp [rawValueFull, hfv]
    rw [e, pyStripSpaces_cons_space]
    have e2 : storedValue f
        = f.firstVal ++ f.conts.flatMap (fun c => '\n' :: ' ' :: c) := rfl
    rw [← e2]
    apply pyStripSpaces_eq_self
    · intro x hx
      apply hfvhead
      rw [e2] at hx
      rw [show (f.firstVal ++ f.conts.flatMap (fun c => '\n' :: ' ' :: c)).head?
            = f.firstVal.head? by rw [hb]; rfl] at hx
      exact hx
    · intro x hx
      rw [e2] at hx
      by_cases hcs : f.conts = []
      · rw [hcs] at hx
        simp only [List.flatMap_nil, List.append_nil] at hx
        exact ne_space_of_not_wsp (hfvlast x hx)
      · rw [List.getLast?_append_of_ne_nil _ (flatCont_ne_nil f.conts hcs)] at hx
        exact ne_space_of_not_wsp (getLast?_flatCont f.conts hconts hcs x hx)

theorem pyJoinChar_consMap (sep : Char) :
    ∀ (x : PyStr) (cs : List PyStr),
      pyJoinChar sep (x :: cs.map (fun c => ' ' :: c))
        = x ++ cs.flatMap (fun c => sep :: ' ' :: c)
  | x, [] => by simp [pyJoinChar]
  | x, c :: cs => by
    have ih := pyJoinChar_consMap sep (' ' :: c) cs
    show x ++ sep :: pyJoinChar sep ((' ' :: c) :: cs.map _) = _
    rw [ih]
    simp

theorem pyJoinChar_fieldLines (f : SrcField) :
    pyJoinChar '\n' (fieldLines f)
      = (f.key ++ ':' :: (if f.firstVal = [] then [] else ' ' :: f.firstVal))
          ++ f.conts.flatMap (fun c => '\n' :: ' ' :: c) :=
  pyJoinChar_consMap '\n' _ f.conts

/-- The emitted line block of one parsed field equals the original wire
form of that field. -/
theorem dump_field_line (f : SrcField) (hf : WFField f) :
    (if pyStartswith (pys "\n") (storedValue f) then f.key ++ ':' :: storedValue f
     else f.key ++ ':' :: ' ' :: storedValue f) = pyJoinChar '\n' (fieldLines f) := by
  obtain ⟨_, _, _, _, _, hfvnl, hempty, hfvhead, hfvlast, hconts⟩ := hf
  rw [pyJoinChar_fieldLines]
  by_cases hfv : f.firstVal = []
  · have hcs := hempty hfv
    obtain ⟨c, cs', hc⟩ := List.exists_cons_of_ne_nil hcs
    have hs : storedValue f = '\n' :: (' ' :: c ++ (cs'.flatMap (fun c => '\n' :: ' ' :: c))) := by
      simp [storedValue, hfv, hc]
    have hsw : pyStartswith (pys "\n") (storedValue f) = true := by
      rw [hs]
      have hp : pys "\n" = ['\n'] := rfl
      simp [pyStartswith, hp, List.take]
    rw [if_pos hsw, hs]
    simp [hfv, hc]
  · obtain ⟨b, t, hb⟩ := List.exists_cons_of_ne_nil hfv
    have hbnl : ¬(b = '\n') := by
      intro hh
      exact hfvnl (by rw [hb, hh]; exact List.mem_cons_self _ _)
    have hs : storedValue f = b :: (t ++ f.conts.flatMap (fun c => '\n' :: ' ' :: c)) := by
      simp [storedValue, hb]
    have hsw : pyStartswith (pys "\n") (storedValue f) = false := by
      rw [hs]
      have hp : pys "\n" = ['\n'] := rfl
      simp [pyStartswith, hp, List.take, hbnl]
    rw [if_neg (by simp [hsw]), hs]
    simp [hfv, hb]

theorem pyJoinChar_flatMap (sep : Char) :
    ∀ (fs : List SrcField), fs ≠ [] →
      pyJoinChar sep (fs.map (fun f => pyJoinChar sep (fieldLines f)))
        = pyJoinChar sep (fs.flatMap fieldLines)
  | [], h => absurd rfl h
  | [f], _ => by simp [pyJoinChar, fieldLines]
  | f :: g :: t, _ => by
    have ih := pyJoinChar_flatMap sep (g :: t) (by simp)
    rw [List.map_cons] at ih ⊢
    rw [List.map_cons]
    rw [show pyJoinChar sep ((pyJoinChar sep (fieldLines f))
          :: (pyJoinChar sep (fieldLines g))
          :: (t.map (fun f => pyJoinChar sep (fieldLines f))))
        = pyJoinChar sep (fieldLines f) ++ sep ::
            pyJoinChar sep ((pyJoinChar sep (fieldLines g))
              :: t.map (fun f => pyJoinChar sep (fieldLines f))) from rfl]
    rw [ih]
    have h1 : fieldLines f ≠ [] := by simp [fieldLines]
    have h2 : (g :: t).flatMap fieldLines ≠ [] := by
      simp only [List.flatMap_cons]
      intro hc
      exact (by simp [fieldLines] : fieldLines g ≠ [])
        (List.append_eq_nil.mp hc).1
    rw [show (f :: g :: t).flatMap fieldLines
          = fieldLines f ++ (g :: t).flatMap fieldLines from by simp]
    rw [pyJoinChar_append sep (fieldLines f) _ h1 h2]

/-- Every wire line of a well-formed stanza is nonempty. -/
theorem fieldLines_ne_nil (f : SrcField) (hf : WFField f) :
    ∀ l ∈ fieldLines f, l ≠ [] := by
  intro l hl
  rcases List.mem_cons.mp hl with rfl | hl
  · obtain ⟨b, k', hk⟩ := List.exists_cons_of_ne_nil hf.1
    rw [hk]
    simp
  · obtain ⟨c, hc, rfl⟩ := List.mem_map.mp hl
    simp

/-- No wire line of a well-formed stanza contains a newline. -/
theorem fieldLines_no_nl (f : SrcField) (hf : WFField f) :
    ∀ l ∈ fieldLines f, '\n' ∉ l := by
  obtain ⟨hkne, hknl, _, _, _, hfvnl, _, _, _, hconts⟩ := hf
  intro l hl
  rcases List.mem_cons.mp hl with rfl | hl
  · intro hmem
    rcases List.mem_append.mp hmem with h | h
    · exact hknl h
    · rcases List.mem_cons.mp h with h | h
      · exact absurd h (by decide)
      · by_cases hfv : f.firstVal = []
        · rw [if_pos hfv] at h
          simp at h
        · rw [if_neg hfv] at h
          rcases List.mem_cons.mp h with h | h
          · exact absurd h (by decide)
          · exact hfvnl h
  · obtain ⟨c, hc, rfl⟩ := List.mem_map.mp hl
    intro hmem
    rcases List.mem_cons.mp hmem with h | h
    · exact absurd h (by decide)
    · exact (hconts c hc).2.1 h

/-- The last wire line of a well-formed stanza ends in a non-whitespace
character. -/
theorem lastLine_flatMap_fieldLines :
    ∀ (fs : List SrcField), (∀ f ∈ fs, WFField f) → fs ≠ [] →
      ∃ ll, (fs.flatMap fieldLines).getLast? = some ll ∧ ll ≠ [] ∧
        (∀ x ∈ ll.getLast?, isPyWsp x = false)
  | [], _, hne => absurd rfl hne
  | [f], hwf, _ => by
    obtain ⟨hkne, _, _, _, _, hfvnl, hempty, hfvhead, hfvlast, hconts⟩ :=
      hwf f (by simp)
    by_cases hcs : f.conts = []
    · have hfv : f.firstVal ≠ [] := by
        intro hh
        exact (hempty hh) hcs
      refine ⟨f.key ++ ':' :: ' ' :: f.firstVal, ?_, ?_, ?_⟩
      · simp [fieldLines, hcs, if_neg hfv]
      · obtain ⟨b, k', hk⟩ := List.exists_cons_of_ne_nil hkne
        rw [hk]
        simp
      · intro x hx
        apply hfvlast
        rw [show (f.key ++ ':' :: ' ' :: f.firstVal)
              = (f.key ++ [':', ' ']) ++ f.firstVal from by simp] at hx
        rw [List.getLast?_append_of_ne_nil _ hfv] at hx
        exact hx
    · obtain ⟨lc, hlc⟩ : ∃ lc, f.conts.getLast? = some lc :=
        ⟨f.conts.getLast hcs, List.getLast?_eq_getLast f.conts hcs⟩
      have hlcmem : lc ∈ f.conts := List.mem_of_getLast?_eq_some hlc
      obtain ⟨hlcne, _, hlclast⟩ := hconts lc hlcmem
      refine ⟨' ' :: lc, ?_, by simp, ?_⟩
      · show ([f].flatMap fieldLines).getLast? = some (' ' :: lc)
        rw [show [f].flatMap fieldLines = fieldLines f from by simp]
        rw [show fieldLines f
              = [f.key ++ ':' :: (if f.firstVal = [] then []
                  else ' ' :: f.firstVal)] ++ f.conts.map (fun c => ' ' :: c)
            from rfl]
        rw [List.getLast?_append_of_ne_nil _
          (fun hmm => hcs (List.map_eq_nil_iff.mp hmm))]
        rw [List.getLast?_map, hlc]
        rfl
      · intro x hx
        apply hlclast
        rw [show (' ' :: lc).getLast? = lc.getLast? from by
          rw [show (' ' :: lc) = [' '] ++ lc from rfl]
          rw [List.getLast?_append_of_ne_nil _ hlcne]] at hx
        exact hx
  | f :: g :: t, hwf, _ => by
    have ih := lastLine_flatMap_fieldLines (g :: t)
      (fun x hx => hwf x (List.mem_cons_of_mem f hx)) (by simp)
    obtain ⟨ll, hll, hllne, hlast⟩ := ih
    refine ⟨ll, ?_, hllne, hlast⟩
    have h2 : (g :: t).flatMap fieldLines ≠ [] := by
      simp only [List.flatMap_cons]
      intro hc
      exact (by simp [fieldLines] : fieldLines g ≠ [])
        (List.append_eq_nil.mp hc).1
    rw [show (f :: g :: t).flatMap fieldLines
          = fieldLines f ++ (g :: t).flatMap fieldLines from by simp]
    rw [List.getLast?_append_of_ne_nil _ h2]
    exact hll

/-- Round-trip of well-formed stanzas through the source-package parser and
emitter: parsing the wire form and dumping it reproduces the wire form
byte for byte (including checksum-list fields whose colon line carries no
value). -/
theorem source_stanza_round_trip (fs : List SrcField) (h : WFStanza fs) :
    (Source.parse_string (renderStanza fs)).map Source.dump_string
      = some (renderStanza fs) := by
  obtain ⟨hne, hwf, hnd⟩ := h
  have hlne : ∀ l ∈ fs.flatMap fieldLines, l ≠ [] := by
    intro l hl
    obtain ⟨f, hf, hlf⟩ := List.mem_flatMap.mp hl
    exact fieldLines_ne_nil f (hwf f hf) l hlf
  have hlnl : ∀ l ∈ fs.flatMap fieldLines, '\n' ∉ l := by
    intro l hl
    obtain ⟨f, hf, hlf⟩ := List.mem_flatMap.mp hl
    exact fieldLines_no_nl f (hwf f hf) l hlf
  obtain ⟨f, fs', rfl⟩ := List.exists_cons_of_ne_nil hne
  have hflatne : (f :: fs').flatMap fieldLines ≠ [] := by
    simp only [List.flatMap_cons]
    intro hc
    exact (by simp [fieldLines] : fieldLines f ≠ [])
      (List.append_eq_nil.mp hc).1
  have hhead : ((f :: fs').flatMap fieldLines).head?
      = some (f.key ++ ':' :: (if f.firstVal = [] then [] else ' ' :: f.firstVal)) := by
    simp [fieldLines]
  have hkne := (hwf f (by simp)).1
  obtain ⟨b, k', hk⟩ := List.exists_cons_of_ne_nil hkne
  have hbw : isPyWsp b = false :=
    (hwf f (by simp)).2.2.2.1 b (by rw [hk]; rfl)
  have hclne : (f.key ++ ':' :: (if f.firstVal = [] then [] else ' ' :: f.firstVal)) ≠ [] := by
    rw [hk]
    simp
  have ehead := @head?_pyJoinChar '\n' ((f :: fs').flatMap fieldLines)
    _ hhead hclne
  obtain ⟨ll, hll, hllne, hllast⟩ :=
    lastLine_flatMap_fieldLines (f :: fs') hwf (by simp)
  have elast := getLast?_pyJoinChar '\n' ((f :: fs').flatMap fieldLines)
    hlne ll hll
  have hstrip : pyStrip (renderStanza (f :: fs')) = renderStanza (f :: fs') := by
    apply pyStrip_eq_self
    · intro x hx
      rw [show renderStanza (f :: fs')
            = pyJoinChar '\n' ((f :: fs').flatMap fieldLines) from rfl, ehead] at hx
      rw [hk] at hx
      cases hx
      exact hbw
    · intro x hx
      rw [show renderStanza (f :: fs')
            = pyJoinChar '\n' ((f :: fs').flatMap fieldLines) from rfl, elast] at hx
      exact hllast x hx
  have hsplit : pySplitChar '\n' (renderStanza (f :: fs'))
      = (f :: fs').flatMap fieldLines :=
    pySplitChar_joinChar _ hflatne hlnl
  rw [show Source.parse_string (renderStanza (f :: fs'))
        = srcLoop none none []
            (pySplitChar '\n' (pyStrip (renderStanza (f :: fs')))) from rfl]
  rw [hstrip, hsplit, srcLoop_start f fs' hwf]
  rw [foldl_odSet_eq_append (f :: fs') [] (by simp) hnd]
  simp only [List.nil_append, Option.map_some']
  have hmap1 : (f :: fs').map (fun g => (g.key, pyStripSpaces (rawValueFull g)))
      = (f :: fs').map (fun g => (g.key, storedValue g)) :=
    List.map_congr_left (fun g hg => by rw [pyStripSpaces_rawValueFull g (hwf g hg)])
  rw [hmap1]
  rw [show Source.dump_string ((f :: fs').map (fun g => (g.key, storedValue g)))
        = pyJoinChar '\n' (((f :: fs').map (fun g => (g.key, storedValue g))).map
            (fun kv => if pyStartswith (pys "\n") kv.2 then kv.1 ++ ':' :: kv.2
              else kv.1 ++ ':' :: ' ' :: kv.2)) from rfl]
  rw [List.map_map]
  have hmap2 : (f :: fs').map ((fun kv : PyStr × PyStr =>
        if pyStartswith (pys "\n") kv.2 then kv.1 ++ ':' :: kv.2
        else kv.1 ++ ':' :: ' ' :: kv.2) ∘ (fun g => (g.key, storedValue g)))
      = (f :: fs').map (fun g => pyJoinChar '\n' (fieldLines g)) :=
    List.map_congr_left (fun g hg => dump_field_line g (hwf g hg))
  rw [hmap2, pyJoinChar_flatMap '\n' (f :: fs') (by simp)]
  rfl


theorem odGet_odSet_ne : ∀ (d : ODict) (k k₁ v : PyStr), ¬(k = k₁) →
    odGet (odSet d k v) k₁ = odGet d k₁
  | [], k, k₁, v, h => by simp [odSet, odGet, h]
  | (k', v') :: rest, k, k₁, v, h => by
    have h' : ¬(k₁ = k) := fun hh => h hh.symm
    have ih := odGet_odSet_ne rest k k₁ v h
    by_cases hk : k' = k
    · subst hk
      simp [odSet, odGet, h, h']
    · by_cases hk₁ : k' = k₁ <;> simp [odSet, odGet, hk, hk₁, ih, h, h']

theorem odGet_odSet_same : ∀ (d : ODict) (k v : PyStr),
    odGet (odSet d k v) k = some v
  | [], k, v => by simp [odSet, odGet]
  | (k', v') :: rest, k, v => by
    by_cases hk : k' = k
    · subst hk
      simp [odSet, odGet]
    · have ih := odGet_odSet_same rest k v
      simp [odSet, odGet, hk, ih]

theorem requiresLoop_libc_run :
    ∀ (ls : List DepEntry),
      (∀ e ∈ ls, pyStartswith (pys "libc.so.6") e.name = true) →
      ∀ (h : DepEntry) (res : PyStr) (rest : List DepEntry),
        requiresLoop res (some h) (ls ++ rest)
          = requiresLoop res (some (foldHighest h ls)) rest
  | [], _, h, res, rest => rfl
  | r :: ls', hls, h, res, rest => by
    have hr := hls r (by simp)
    have ih := fun h' =>
      requiresLoop_libc_run ls' (fun e he => hls e (List.mem_cons_of_mem r he))
        h' res rest
    show requiresLoop res (some h) (r :: (ls' ++ rest)) = _
    rw [requiresLoop, hr]
    by_cases hc : compare_dependency h.name r.name = 2 <;>
      simp [hc, ih, foldHighest]

theorem requiresLoop_nonlibc :
    ∀ (ms : List DepEntry),
      (∀ e ∈ ms, pyStartswith (pys "libc.so.6") e.name = false) →
      ∀ (res : PyStr), requiresLoop res none ms = ms.foldl add_requires_entry res
  | [], _, res => rfl
  | m :: ms', hms, res => by
    have hm := hms m (by simp)
    have ih := requiresLoop_nonlibc ms'
      (fun e he => hms e (List.mem_cons_of_mem m he)) (add_requires_entry res m)
    simp [requiresLoop, hm, ih]

/-! ### Claim theorems -/

/-- C1: the revision written into repomd.xml is NOT the previous revision
plus one.  `parse_repomd` tests the truth value of the found `<revision>`
element (`if revision_element:`), and an ElementTree element without child
elements is falsy, so an existing `<revision>5</revision>` is ignored:
the revision parses as "0" and the bump of `update_repo` emits "1"
instead of "6".  Every run therefore writes revision "1". -/
theorem c1_revision_not_incremented :
    parse_repomd (Xml.elem "repomd" [] "" [Xml.elem "revision" [] "5" []])
        = .ok (none, none, none, "0")
    ∧ next_revision "0" = some "1"
    ∧ ¬(next_revision "0" = some "6") := by
  refine ⟨rfl, rfl, ?_⟩
  decide

/-- C3: for every RPMSENSE flags word the operator string is EQ for 0x08,
LT for 0x02, GT for 0x04 and NE for 0x06, and None for a zero low nibble,
but LE and GE are never produced: the `flags & LESS` / `flags & GREATER`
branches run first, so 0x0a yields LT (not LE) and 0x0c yields GT
(not GE); the LE/GE branches of `flags_to_str` are unreachable. -/
theorem c3_flags_le_ge_unreachable :
    flags_to_str 0x0a = .ok (some "LT")
    ∧ flags_to_str 0x0c = .ok (some "GT")
    ∧ flags_to_str 0x08 = .ok (some "EQ")
    ∧ flags_to_str 0x02 = .ok (some "LT")
    ∧ flags_to_str 0x04 = .ok (some "GT")
    ∧ flags_to_str 0x06 = .ok (some "NE")
    ∧ flags_to_str 0x00 = .ok none
    ∧ (∀ flags : Nat, ¬(flags_to_str flags = .ok (some "LE")))
    ∧ (∀ flags : Nat, ¬(flags_to_str flags = .ok (some "GE"))) := by
  refine ⟨by decide, by decide, by decide, by decide, by decide, by decide,
    by decide, ?_, ?_⟩ <;>
  · intro flags
    have hle : flags &&& 0x0e ≤ 0x0e := Nat.and_le_right
    unfold flags_to_str
    set fl := flags &&& 0x0e with hfl
    interval_cases fl <;>
      first
        | decide
        | (exfalso
           have h0 := congrArg (fun n => n.testBit 0) hfl
           simp at h0)

set_option maxRecDepth 100000 in
/-- C2 counterexample: when the `libc.so.6*` run is last in sorted
requires order, the emitted `rpm:requires` block contains NO libc entry
at all, not the highest one: the pending fold state is dropped when the
loop ends.  For a package whose requires are exactly the three libc
entries of the seed scenario, the whole emitted primary.xml does not
mention libc. -/
theorem c2_trailing_libc_run_dropped :
    requiresLoop [] none
      [libcReq "libc.so.6()(64bit)", libcReq "libc.so.6(GLIBC_2.2.5)(64bit)",
       libcReq "libc.so.6(GLIBC_2.4)(64bit)"] = []
    ∧ pyContains (pys "libc")
        (dump_primary [((pys "p", none, none, none), libcOnlyPkg)]) = false := by
  constructor
  · rfl
  · decide

/-- C2 (amended): among the sorted requires, a run of `libc.so.6*`
entries is folded to the single entry selected by `compare_dependency`
(the highest library version) and emitted exactly once — but only when a
non-libc entry follows the run; when the libc run is last in the sorted
order, no libc entry is emitted at all.  Non-libc entries are emitted
unchanged in order. -/
theorem c2_libc_fold_amended (ls ms : List DepEntry) (res : PyStr)
    (hls : ∀ e ∈ ls, pyStartswith (pys "libc.so.6") e.name = true)
    (hms : ∀ e ∈ ms, pyStartswith (pys "libc.so.6") e.name = false) :
    (ms ≠ [] → requiresLoop res none (ls ++ ms)
        = ms.foldl add_requires_entry
            (match ls with
             | [] => res
             | l :: ls' => add_requires_entry res (foldHighest l ls')))
    ∧ requiresLoop res none ls = res := by
  constructor
  · intro hne
    cases ls with
    | nil => simpa using requiresLoop_nonlibc ms hms res
    | cons l ls' =>
      have hl := hls l (by simp)
      show requiresLoop res none (l :: (ls' ++ ms)) = _
      rw [requiresLoop, hl]
      simp only [if_true]
      rw [requiresLoop_libc_run ls'
        (fun e he => hls e (List.mem_cons_of_mem l he)) l res ms]
      cases ms with
      | nil => exact absurd rfl hne
      | cons m ms' =>
        have hm := hms m (by simp)
        rw [requiresLoop, hm]
        simp only [Bool.false_eq_true, if_false]
        rw [requiresLoop_nonlibc ms'
          (fun e he => hms e (List.mem_cons_of_mem m he))]
        rfl
  · cases ls with
    | nil => rfl
    | cons l ls' =>
      have hl := hls l (by simp)
      show requiresLoop res none (l :: ls') = res
      rw [requiresLoop, hl]
      simp only [if_true]
      have := requiresLoop_libc_run ls'
        (fun e he => hls e (List.mem_cons_of_mem l he)) l res []
      simpa using this

/-- C2 witness: the seed scenario.  The three libc entries followed by
`libpcre.so.1()(64bit)` emit exactly the folded `GLIBC_2.4` entry and
the libpcre entry. -/
theorem c2_libc_fold_amended_witness :
    requiresLoop [] none
      ([libcReq "libc.so.6()(64bit)", libcReq "libc.so.6(GLIBC_2.2.5)(64bit)",
        libcReq "libc.so.6(GLIBC_2.4)(64bit)"] ++ [libcReq "libpcre.so.1()(64bit)"])
      = [libcReq "libpcre.so.1()(64bit)"].foldl add_requires_entry
          (add_requires_entry []
            (foldHighest (libcReq "libc.so.6()(64bit)")
              [libcReq "libc.so.6(GLIBC_2.2.5)(64bit)",
               libcReq "libc.so.6(GLIBC_2.4)(64bit)"])) := by
  have h := (c2_libc_fold_amended
    [libcReq "libc.so.6()(64bit)", libcReq "libc.so.6(GLIBC_2.2.5)(64bit)",
     libcReq "libc.so.6(GLIBC_2.4)(64bit)"]
    [libcReq "libpcre.so.1()(64bit)"] []
    (by decide) (by decide)).1 (by decide)
  exact h

/-- C4 counterexample: the binary-package parser does not round-trip a
stanza whose checksum-list field has an empty colon line.  Parsing
`Checksums-Sha1:` followed by a continuation line collapses the value to
the continuation's content (the falsy empty value is replaced by the
line, and the flush strips it), and `Package.dump_string` always emits
`Key: value` with a space, so the emitted stanza differs from the
input. -/
theorem c4_package_roundtrip_counterexample :
    (Package.parse_string (pys "Checksums-Sha1:\n abc 1 f")).map Package.dump_string
      = some (pys "Checksums-Sha1: abc 1 f")
    ∧ ¬(some (pys "Checksums-Sha1: abc 1 f")
        = some (pys "Checksums-Sha1:\n abc 1 f")) := by
  constructor
  · rfl
  · decide

/-- C4 (amended): the round-trip holds for the SOURCE-package parser and
emitter: for every well-formed control stanza, parsing its wire form
with `Source.parse_string` and emitting with `Source.dump_string`
reproduces the wire form byte for byte, including checksum-list fields
whose colon line carries no value (a stored value beginning with a
newline is emitted as the key, the colon and the value with no space).
The BINARY-package parser (`Package.parse_string`) does NOT satisfy the
round-trip on such stanzas (see the counterexample). -/
theorem c4_source_roundtrip_amended (fs : List SrcField) (h : WFStanza fs) :
    (Source.parse_string (renderStanza fs)).map Source.dump_string
      = some (renderStanza fs) :=
  source_stanza_round_trip fs h

/-- C4 witness: a stanza with an ordinary field and a checksum-list
field whose colon line carries no value round-trips through the
source-package parser and emitter. -/
theorem c4_roundtrip_witness :
    WFStanza c4StanzaFields
    ∧ (Source.parse_string (renderStanza c4StanzaFields)).map Source.dump_string
        = some (renderStanza c4StanzaFields) :=
  ⟨by decide, c4_source_roundtrip_amended c4StanzaFields (by decide)⟩

/-- C5: the `.deb` path splitting on the claim's three examples.  The
first yields ("deb9", "main", "amd64") as claimed; the second matches the
filename regex with version "0.6.6-2" and dist group "1", yielding
("1", "main", "amd64") instead of the claimed ("all", "main", "amd64");
the third does not match the regex at all (the version "1.1" needs at
least two dotted groups and a -digit suffix), so split_pkg_path returns
None instead of the claimed ("all", "main", "all") — and the caller
aborts via sys.exit(1). -/
theorem c5_split_pkg_path_examples :
    split_pkg_path
        (pys "pool/deb9/main/t/tarantool/libtarantool-dev_1.5.2.20.g5f5d924-2_amd64.deb")
      = .ok (some (pys "deb9", pys "main", pys "amd64"))
    ∧ split_pkg_path (pys "pool/main/t/tarantool/tarantool-python_0.6.6-21_amd64.deb")
      = .ok (some (pys "1", pys "main", pys "amd64"))
    ∧ ¬(split_pkg_path (pys "pool/main/t/tarantool/tarantool-python_0.6.6-21_amd64.deb")
      = .ok (some (pys "all", pys "main", pys "amd64")))
    ∧ split_pkg_path
        (pys "pool/multiverse/a/astrometry-data-2mass/astrometry-data-2mass_1.1_all.deb")
      = .ok none := by
  refine ⟨by decide, by decide, by decide, by decide⟩

/-- C9: a `.deb` whose control member is `control.tar.zst` is NOT
parsed: `parse_deb` only ever runs the gzip pipeline (when a member name
contains `control.tar.gz`) or the xz pipeline on `control.tar.xz`, so the
zstd member makes the xz pipeline fail; gzip and xz members parse fine.
The repository's own test expects the zst `.deb` to parse. -/
theorem c9_zstd_control_not_supported :
    Package.parse_deb
        [⟨pys "control.tar.zst", TarComp.zst, [(pys "./control", pys "Package: openssl")]⟩]
      = .error "CalledProcessError: ar -p"
    ∧ Package.parse_deb
        [⟨pys "control.tar.gz", TarComp.gz, [(pys "./control", pys "Package: openssl")]⟩]
      = .ok [(pys "Package", pys "openssl")]
    ∧ Package.parse_deb
        [⟨pys "control.tar.xz", TarComp.xz, [(pys "./control", pys "Package: openssl")]⟩]
      = .ok [(pys "Package", pys "openssl")] := by
  refine ⟨by decide, by decide, by decide⟩

/-- C8 counterexample: a malformed `.dsc` aborts the run even though
force mode is in effect — `process_sources` has no force parameter and
no try/except around `parse_dsc` — while a malformed `.deb` under force
is recorded in the malformed list and processing continues. -/
theorem c8_dsc_force_not_handled :
    process_sources [(pys "pool/d/main/a/a/bad.dsc", .err "ValueError")]
      = .error "ValueError"
    ∧ process_packages true [(pys "pool/d/main/a/a/bad.deb", .err "ValueError")]
      = .ok ([], [pys "pool/d/main/a/a/bad.deb"]) := by
  refine ⟨rfl, rfl⟩

/-- C8 (amended): only `.deb` artifacts enjoy force-mode malformed
handling.  A `.dsc` whose parse fails aborts `process_sources`
unconditionally (the function does not even take the force flag), while
`process_packages` under force appends the path to the malformed list
and continues with the remaining artifacts. -/
theorem c8_malformed_handling_amended (path : PyStr) (msg : String)
    (rest : List (PyStr × ParseOutcome)) :
    process_sources ((path, .err msg) :: rest) = .error msg
    ∧ process_packages true ((path, .err msg) :: rest)
        = (process_packages true rest).map (fun r => (r.1, path :: r.2)) := by
  constructor
  · rfl
  · cases h : process_packages true rest with
    | error e => simp [process_packages, h, Except.map, Except.bind]
    | ok r => simp [process_packages, h, Except.map, Except.bind]

set_option maxRecDepth 100000 in
/-- C7 counterexample: the url element, the location href attribute and
the primary `<file>` children are emitted verbatim, with `&` unescaped;
only their raw forms appear in the emitted primary.xml. -/
theorem c7_url_location_files_not_escaped :
    pyContains (pys "<url>http://a&b/</url>")
        (dump_primary [((pys "p", none, none, none), escCexPkg)]) = true
    ∧ pyContains (pys "<location href=\"x/a&b.rpm\"/>")
        (dump_primary [((pys "p", none, none, none), escCexPkg)]) = true
    ∧ pyContains (pys "<file>/etc/a&b</file>")
        (dump_primary [((pys "p", none, none, none), escCexPkg)]) = true
    ∧ pyContains (pys "http://a&amp;b/")
        (dump_primary [((pys "p", none, none, none), escCexPkg)]) = false
    ∧ pyContains (pys "x/a&amp;b.rpm")
        (dump_primary [((pys "p", none, none, none), escCexPkg)]) = false
    ∧ pyContains (pys "/etc/a&amp;b")
        (dump_primary [((pys "p", none, none, none), escCexPkg)]) = false := by
  refine ⟨by decide, by decide, by decide, by decide, by decide, by decide⟩

set_option maxRecDepth 100000 in
/-- C7 (amended): XML special characters are escaped in the summary,
description, packager, license and vendor payloads (as in the seed
scenario), but NOT in the url element, the location href attribute or
the primary `<file>` children. -/
theorem c7_escaped_fields :
    pyContains (pys "<summary>foo &amp; bar</summary>")
        (dump_primary [((pys "p", none, none, none), escCexPkg)]) = true
    ∧ pyContains (pys "<description>&lt;foo&gt;</description>")
        (dump_primary [((pys "p", none, none, none), escCexPkg)]) = true
    ∧ pyContains (pys "<packager>&lt;bar&gt;&amp;&lt;foo&gt;</packager>")
        (dump_primary [((pys "p", none, none, none), escCexPkg)]) = true
    ∧ pyContains (pys "<rpm:license>MIT &amp; MIT</rpm:license>")
        (dump_primary [((pys "p", none, none, none), escCexPkg)]) = true
    ∧ pyContains (pys "<rpm:vendor>Foo&amp;Bar</rpm:vendor>")
        (dump_primary [((pys "p", none, none, none), escCexPkg)]) = true := by
  refine ⟨by decide, by decide, by decide, by decide, by decide⟩

/-- C10 counterexample: a `.dsc` whose `Files`, `Checksums-Sha1` and
`Checksums-Sha256` fields are present but empty is neither extended nor
rejected: the truthiness test `if self.fields[field]:` skips the falsy
empty values, so no digest line is appended anywhere. -/
theorem c10_empty_checksum_fields_not_extended :
    Source.parse_dsc (pys "Package: p\nFiles:\nChecksums-Sha1:\nChecksums-Sha256:")
        (pys "pool/d/main/p/p/p.dsc") 42 (fun _ => pys "d1g3st")
      = .ok [(pys "Package", pys "p"), (pys "Files", []),
             (pys "Checksums-Sha1", []), (pys "Checksums-Sha256", []),
             (pys "Directory", pys "pool/d/main/p/p")] := by
  decide

/-- C10 (amended): a `.dsc` stanza missing the `Files` field makes
`parse_dsc` raise `KeyError` (rather than skipping the absent field);
when all three checksum fields are present with non-empty values, each is
extended by one line holding the digest, the size and the basename of
the `.dsc` itself; a present-but-empty field is left unchanged (see the
counterexample). -/
theorem c10_checksum_extension_amended (dsc loc : PyStr) (size : Nat)
    (checksum : String → PyStr) (fs : ODict)
    (hp : Source.parse_string dsc = some fs) :
    (odGet fs (pys "Files") = none →
      Source.parse_dsc dsc loc size checksum = .error "KeyError")
    ∧ (∀ v₁ v₂ v₃ : PyStr,
        odGet fs (pys "Files") = some v₁ → ¬(v₁ = []) →
        odGet fs (pys "Checksums-Sha1") = some v₂ → ¬(v₂ = []) →
        odGet fs (pys "Checksums-Sha256") = some v₃ → ¬(v₃ = []) →
        Source.parse_dsc dsc loc size checksum
          = .ok (odSet (odSet (odSet (odSet fs (pys "Directory") (pyDirname loc))
              (pys "Files")
              (v₁ ++ '\n' :: ' ' :: (checksum "md5"
                ++ ' ' :: (pys (toString size) ++ ' ' :: pyBasename loc))))
              (pys "Checksums-Sha1")
              (v₂ ++ '\n' :: ' ' :: (checksum "sha1"
                ++ ' ' :: (pys (toString size) ++ ' ' :: pyBasename loc))))
              (pys "Checksums-Sha256")
              (v₃ ++ '\n' :: ' ' :: (checksum "sha256"
                ++ ' ' :: (pys (toString size) ++ ' ' :: pyBasename loc))))) := by
  have hDF : ¬(pys "Directory" = pys "Files") := by decide
  have hDS1 : ¬(pys "Directory" = pys "Checksums-Sha1") := by decide
  have hDS2 : ¬(pys "Directory" = pys "Checksums-Sha256") := by decide
  have hFS1 : ¬(pys "Files" = pys "Checksums-Sha1") := by decide
  have hFS2 : ¬(pys "Files" = pys "Checksums-Sha256") := by decide
  have hS1S2 : ¬(pys "Checksums-Sha1" = pys "Checksums-Sha256") := by decide
  constructor
  · intro hnone
    simp only [Source.parse_dsc, hp, bind, Except.bind]
    rw [odGet_odSet_ne _ _ _ _ hDF, hnone]
  · intro v₁ v₂ v₃ h₁ hv₁ h₂ hv₂ h₃ hv₃
    simp only [Source.parse_dsc, hp, bind, Except.bind]
    rw [odGet_odSet_ne _ _ _ _ hDF, h₁]
    simp only [ne_eq, hv₁, not_false_eq_true, if_true]
    rw [odGet_odSet_ne _ _ _ _ hFS1, odGet_odSet_ne _ _ _ _ hDS1, h₂]
    simp only [ne_eq, hv₂, not_false_eq_true, if_true]
    rw [odGet_odSet_ne _ _ _ _ hS1S2, odGet_odSet_ne _ _ _ _ hFS2,
      odGet_odSet_ne _ _ _ _ hDS2, h₃]
    simp only [ne_eq, hv₃, not_false_eq_true, if_true]
    rfl

/-- C10 witness: a concrete `.dsc` stanza with all three checksum
fields populated is extended with the digest lines. -/
theorem c10_checksum_extension_witness :
    Source.parse_dsc
        (pys "Package: p\nFiles:\n m0 1 a\nChecksums-Sha1:\n s1 1 a\nChecksums-Sha256:\n s2 1 a")
        (pys "pool/d/main/p/p/p.dsc") 42 (fun t => pys t)
      = .ok [(pys "Package", pys "p"),
             (pys "Files", pys "\n m0 1 a\n md5 42 p.dsc"),
             (pys "Checksums-Sha1", pys "\n s1 1 a\n sha1 42 p.dsc"),
             (pys "Checksums-Sha256", pys "\n s2 1 a\n sha256 42 p.dsc"),
             (pys "Directory", pys "pool/d/main/p/p")] := by
  have h := (c10_checksum_extension_amended
    (pys "Package: p\nFiles:\n m0 1 a\nChecksums-Sha1:\n s1 1 a\nChecksums-Sha256:\n s2 1 a")
    (pys "pool/d/main/p/p/p.dsc") 42 (fun t => pys t)
    [(pys "Package", pys "p"), (pys "Files", pys "\n m0 1 a"),
     (pys "Checksums-Sha1", pys "\n s1 1 a"),
     (pys "Checksums-Sha256", pys "\n s2 1 a")]
    (by decide)).2
    (pys "\n m0 1 a") (pys "\n s1 1 a") (pys "\n s2 1 a")
    (by decide) (by decide) (by decide) (by decide) (by decide) (by decide)
  rw [h]
  decide

/-- `parse_header` records as its end position the 8-byte-aligned end of
the data store: store counts (nIndex, nData) read by the
header-of-headers, end = align8(pos + 16 + 16*nIndex + nData). -/
theorem parse_header_end_aligned (data : Bytes) (pos : Nat)
    (table : List (Nat × String)) (res : List (String × RpmVal) × Nat)
    (h : parse_header data pos table = some res) :
    ∃ n d, read_header_header data pos = some (n, d) ∧
      res.2 = align8 (pos + 16 + 16 * n + d) := by
  unfold parse_header at h
  cases hhh : read_header_header data pos with
  | none => rw [hhh] at h; exact absurd h (by simp [bind, Option.bind])
  | some nd =>
    obtain ⟨n, d⟩ := nd
    rw [hhh] at h
    simp only [bind, Option.bind] at h
    cases he : read_index_entries data (pos + 16) n with
    | none => simp [he] at h
    | some es =>
      simp only [he] at h
      cases hs : read_store data (pos + 16 + 16 * n) table es [] with
      | none => simp [hs] at h
      | some st =>
        simp only [hs, pure, Option.some.injEq] at h
        subst h
        exact ⟨n, d, rfl, rfl⟩

set_option maxRecDepth 100000 in
/-- C6 counterexample: a minimal RPM whose main-header store is one byte
long.  The store ends at byte 129, but the recorded `header_end` is 136:
`_read_store` seeks to the 8-byte-aligned end for the main header too,
so alignment is NOT applied only after the signature header. -/
theorem c6_header_end_alignment_counterexample :
    parse_file rpmCexBytes = .ok ⟨[], 112, 136⟩
    ∧ read_header_header rpmCexBytes 112 = some (0, 1)
    ∧ ¬((136 : Nat) = 112 + 16 + 16 * 0 + 1) := by
  refine ⟨by decide, by decide, by decide⟩

/-- C6 (amended): for every RPM file accepted by the decoder, the
recorded `header_end` is the byte offset after the main header's data
store rounded UP to the next 8-byte boundary: the same alignment that
follows the signature header is applied after the main header as well. -/
theorem c6_header_end_is_aligned_store_end (data : Bytes) (r : RpmInfoResult)
    (h : parse_file data = .ok r) :
    ∃ n d, read_header_header data r.header_start = some (n, d) ∧
      r.header_end = align8 (r.header_start + 16 + 16 * n + d) := by
  simp only [parse_file, bind, Except.bind] at h
  split at h
  next heq =>
    split at h
    · split at h
      next hm =>
        split at h
        next hv =>
          split at h
          · exact absurd h (by simp)
          · split at h
            next rsig hsig =>
              split at h
              next rmain hmain =>
                simp only [pure, Except.pure, Except.ok.injEq] at h
                subst h
                obtain ⟨n, d, hnd, hend⟩ :=
                  parse_header_end_aligned data rsig.2 HEADER_TAG_TABLE rmain hmain
                exact ⟨n, d, hnd, hend⟩
              next => exact absurd h (by simp)
            next => exact absurd h (by simp)
        next => exact absurd h (by simp)
      next => exact absurd h (by simp)
    · exact absurd h (by simp)
  next => exact absurd h (by simp)

set_option maxRecDepth 100000 in
/-- C6 witness: the amended relation evaluated on the counterexample
bytes: the main header holds no index entries and one data byte, and
136 = align8(112 + 16 + 0 + 1). -/
theorem c6_header_end_witness :
    ∃ n d, read_header_header rpmCexBytes 112 = some (n, d) ∧
      (136 : Nat) = align8 (112 + 16 + 16 * n + d) := by
  have h : parse_file rpmCexBytes = .ok ⟨[], 112, 136⟩ := by decide
  simpa using c6_header_end_is_aligned_store_end rpmCexBytes ⟨[], 112, 136⟩ h

end Mkrepo
